import Mathlib

/-!
Verification of the TNO powertrains EMS dispatch controller.

Shallow embedding of the repository sources:
* `controller_ems.py`  — `controller_multiple_cars`, the per-step dispatch policy;
* `ev_battery_state.py` — `ev_state`, the per-vehicle status derivation;
* `cosim_framework.py` — the orchestrator's scalar-setpoint guard;
* `battery_storage.py` — imported by the controller but absent from the sources,
  modelled from the specification (section 4.1).

All quantities are rationals.  Python runtime errors (TypeError on list
arithmetic, ZeroDivisionError, IndexError on `list[0]`) are modelled by
`Option`: a step that would raise returns `none`.
-/

namespace TNO

/-- Python `int()` applied to a rational: truncation toward zero
(`controller_ems.py` lines 52-56 normalize `ev_caps` through `int`). -/
def pyInt (q : ℚ) : ℤ := if 0 ≤ q then ⌊q⌋ else ⌈q⌉

/-- A Python value that is either a scalar number or a list of numbers.
The power setpoint threaded through the controller may erroneously be a
list; `controller_ems.py` lines 161-164 flatten it defensively. -/
inductive PyVal where
  | scalar (x : ℚ)
  | pyList (xs : List ℚ)
deriving DecidableEq

/-- Adding a number to a `PyVal`, as Python `+=` does: on a list this is a
TypeError, modelled as `none`. -/
def pyAddNum (p : PyVal) (q : ℚ) : Option PyVal :=
  match p with
  | .scalar x => some (.scalar (x + q))
  | .pyList _ => none

/-- `controller_ems.py` lines 161-166: if the setpoint is a list it is
replaced by its first element (IndexError on an empty list), then `float()`
of a number is returned. -/
def flattenSetpoint : PyVal → Option ℚ
  | .scalar x => some x
  | .pyList (x :: _) => some x
  | .pyList [] => none

/-- `cosim_framework.py` lines 107-108: the orchestrator raises `ValueError`
when the controller's setpoint is a list; it accepts anything else. -/
def manager_accepts : PyVal → Bool
  | .pyList _ => false
  | .scalar _ => true

/-- Modelled from the spec: `battery_storage.py` (class `BatteryStorage`) is
imported by `controller_ems.py` and `cosim_framework.py` but is not among the
source files; its state follows section 4.1 of the specification. -/
structure BatteryStorage where
  capacity : ℚ
  charge_eff : ℚ
  discharge_eff : ℚ
  soc : ℚ
deriving DecidableEq

def BatteryStorage.get_soc (b : BatteryStorage) : ℚ := b.soc

def BatteryStorage.get_remaining_capacity (b : BatteryStorage) : ℚ :=
  b.capacity - b.soc

/-- Modelled from the spec: `BatteryStorage.charge` (section 4.1) increases
`soc` by `amount * dt * charge_efficiency` clamped to `capacity` and returns
the amount actually absorbed. -/
def BatteryStorage.charge (b : BatteryStorage) (amount dt : ℚ) : ℚ × BatteryStorage :=
  let newSoc := min b.capacity (b.soc + amount * dt * b.charge_eff)
  (newSoc - b.soc, { b with soc := newSoc })

/-- Modelled from the spec: `BatteryStorage.discharge` (section 4.1) decreases
`soc` by `amount * dt / discharge_efficiency` clamped to `0` and returns the
amount actually delivered. -/
def BatteryStorage.discharge (b : BatteryStorage) (amount dt : ℚ) : ℚ × BatteryStorage :=
  let newSoc := max 0 (b.soc - amount * dt / b.discharge_eff)
  ((b.soc - newSoc) * b.discharge_eff / dt, { b with soc := newSoc })

/-- The controller settings read from the YAML configuration files
(`controller_ems.py` lines 43-49). -/
structure ControllerSettings where
  voltage_min : ℚ
  voltage_max : ℚ
  p_adjust : ℚ
  price_high : ℚ
  price_low : ℚ
deriving DecidableEq

/-- The `ev_caps` argument of the controller: a scalar or a list
(`controller_ems.py` lines 52-56). -/
inductive EvCapsIn where
  | scalar (x : ℚ)
  | caps (xs : List ℚ)
deriving DecidableEq

/-- `controller_ems.py` lines 52-56: a scalar capacity is wrapped into a
one-element list, and every capacity goes through `int()`. -/
def normalizeEvCaps : EvCapsIn → List ℚ
  | .scalar x => [((pyInt x : ℤ) : ℚ)]
  | .caps xs => xs.map (fun c => ((pyInt c : ℤ) : ℚ))

/-- Read entry `t` of row `i` of a list of rows of rationals (Python
`tr[i][t]`); out-of-range reads default to `0` and are excluded by
hypotheses wherever Python would raise. -/
def get2 (tr : List (List ℚ)) (i t : Nat) : ℚ := (tr.getD i []).getD t 0

/-- Write entry `t` of row `i` (Python `tr[i][t] = v`); out of range it is a
no-op. -/
def set2 (tr : List (List ℚ)) (i t : Nat) (v : ℚ) : List (List ℚ) :=
  tr.set i ((tr.getD i []).set t v)

/-- Read entry `t` of row `i` of a list of rows of naturals
(Python `status[i][time_step]`). -/
def getN (tr : List (List Nat)) (i t : Nat) : Nat := (tr.getD i []).getD t 0

/-- `controller_ems.py` line 70: the indices whose status at `time_step`
is `1`. -/
def chargingIndices (status : List (List Nat)) (time_step : Nat) : List Nat :=
  (List.range status.length).filter (fun i => getN status i time_step = 1)

/-- `controller_ems.py` line 93: the summed port power of the charging
vehicles. -/
def total_nominal (ports : List ℚ) (idx : List Nat) : ℚ :=
  (idx.map (fun i => ports.getD i 0)).sum

/-- The four dispatch regimes of `controller_ems.py` lines 97-152. -/
inductive DispatchCase where
  | A | B | C | D
deriving DecidableEq

/-- The guard chain of `controller_ems.py` lines 98, 114, 124, 139: `d` is
the total nominal demand, `g` the total generation, `s` the storage state of
charge, `gr` the grid capacity.  `none` is the (unreachable) fall-through of
the `elif` chain. -/
def dispatchCase (d g s gr : ℚ) : Option DispatchCase :=
  if d ≤ g then some .A
  else if d ≤ g + s then some .B
  else if d ≤ g + s + gr then some .C
  else if d > g + s + gr then some .D
  else none

/-- The effective condition under which each branch of the `if`/`elif` chain
of `controller_ems.py` lines 97-152 executes. -/
def caseFires : DispatchCase → ℚ → ℚ → ℚ → ℚ → Prop
  | .A, d, g, _, _ => d ≤ g
  | .B, d, g, s, _ => ¬ d ≤ g ∧ d ≤ g + s
  | .C, d, g, s, gr => ¬ d ≤ g ∧ ¬ d ≤ g + s ∧ d ≤ g + s + gr
  | .D, d, g, s, gr => ¬ d ≤ g ∧ ¬ d ≤ g + s ∧ ¬ d ≤ g + s + gr ∧ d > g + s + gr

instance (c : DispatchCase) (d g s gr : ℚ) : Decidable (caseFires c d g s gr) := by
  cases c <;> simp only [caseFires] <;> infer_instance

/-- A fold writing one value per index at column `t+1` of a trace matrix;
`val acc i = none` means index `i` is skipped.  Both the charging loop
(`controller_ems.py` lines 99-148) and the non-charging update (lines
154-159) are instances. -/
def foldWrite (t : Nat) (val : List (List ℚ) → Nat → Option ℚ)
    (tr : List (List ℚ)) (idx : List Nat) : List (List ℚ) :=
  idx.foldl
    (fun acc i =>
      match val acc i with
      | some v => set2 acc i (t + 1) v
      | none => acc)
    tr

/-- The charging loop body of cases 1-4 (`controller_ems.py` lines 99-102,
117-120, 132-135, 143-148): each charging vehicle `i` gets
`min(tr[i][t] + amt i, caps[i])` written at `t+1`. -/
def chargeWrite (t : Nat) (caps : List ℚ) (amt : Nat → ℚ)
    (tr : List (List ℚ)) (idx : List Nat) : List (List ℚ) :=
  foldWrite t (fun acc i => some (min (get2 acc i t + amt i) (caps.getD i 0))) tr idx

/-- `controller_ems.py` lines 154-159: away vehicles (status 0) get next-step
charge `0`, full vehicles (status 5) carry their current charge over. -/
def nonChargingUpdate (status : List (List Nat)) (t : Nat)
    (tr : List (List ℚ)) : List (List ℚ) :=
  foldWrite t
    (fun acc i =>
      if getN status i t = 0 then some 0
      else if getN status i t = 5 then some (get2 acc i t)
      else none)
    tr (List.range status.length)

/-- `controller_ems.py` lines 92-152: the dispatch over the four regimes.
`none` models the `ZeroDivisionError` of `ratio = power_charging_port[i] /
total_requested` in case 4 when the total demand is zero. -/
def chargingDispatch (ports : List ℚ) (storage_obj : BatteryStorage) (money : ℚ)
    (time_step : Nat) (tr : List (List ℚ))
    (solar wind current_price grid_capacity : ℚ)
    (psp : PyVal) (caps : List ℚ) (charging : List Nat) :
    Option (ℚ × BatteryStorage × PyVal × List (List ℚ)) :=
  let d := total_nominal ports charging
  let total_generated := solar + wind
  let total_power_available := total_generated + storage_obj.get_soc + grid_capacity
  match dispatchCase d total_generated storage_obj.get_soc grid_capacity with
  | some .A =>
      let tr1 := chargeWrite time_step caps (fun i => ports.getD i 0) tr charging
      let excess := total_generated - d
      let room := storage_obj.get_remaining_capacity
      let to_store := min excess room
      let storage1 := (storage_obj.charge to_store 1).2
      let money1 :=
        if excess > room then money + (excess - to_store) * current_price else money
      some (money1, storage1, .scalar d, tr1)
  | some .B =>
      let deficit := d - total_generated
      let storage1 := (storage_obj.discharge deficit 1).2
      let tr1 := chargeWrite time_step caps (fun i => ports.getD i 0) tr charging
      some (money, storage1, .scalar d, tr1)
  | some .C =>
      let needed := d - total_generated
      let storage_used := min storage_obj.get_soc needed
      let res := storage_obj.discharge storage_used 1
      let remaining_deficit := needed - res.1
      let grid_used := min grid_capacity remaining_deficit
      let money1 := money - grid_used * current_price
      let tr1 := chargeWrite time_step caps (fun i => ports.getD i 0) tr charging
      some (money1, res.2, .scalar d, tr1)
  | some .D =>
      if d = 0 then none
      else
        let tr1 := chargeWrite time_step caps
          (fun i => ports.getD i 0 / d * total_power_available) tr charging
        let used_from_storage := min storage_obj.get_soc (d - total_generated)
        let storage1 := (storage_obj.discharge used_from_storage 1).2
        let money1 := money - grid_capacity * current_price
        some (money1, storage1, psp, tr1)
  | none => some (money, storage_obj, psp, tr)

/-- `controller_ems.py` lines 59-63: voltage-based adjustment of the power
setpoint (a TypeError, hence `none`, when the setpoint is a list). -/
def adjustedSetpoint (cs : ControllerSettings) (voltage : ℚ) (p : PyVal) :
    Option PyVal :=
  if voltage < cs.voltage_min then pyAddNum p cs.p_adjust
  else if voltage > cs.voltage_max then pyAddNum p (-cs.p_adjust)
  else some p

/-- `controller_ems.py` lines 76-90: the branch taken when no vehicle is
charging; returns the updated money and storage (setpoint `0`, traces
untouched). -/
def noChargingBranch (cs : ControllerSettings) (storage_obj : BatteryStorage)
    (money current_price storage_capacity total_power : ℚ) :
    ℚ × BatteryStorage :=
  if current_price > cs.price_high then
    (money + total_power * current_price, storage_obj)
  else if current_price < cs.price_low then
    if storage_obj.get_soc ≥ storage_capacity then
      (money + total_power * current_price, storage_obj)
    else
      let room := storage_obj.get_remaining_capacity
      let to_store := min total_power room
      let storage1 := (storage_obj.charge to_store 1).2
      let money1 :=
        if total_power > to_store then
          money + (total_power - to_store) * current_price
        else money
      (money1, storage1)
  else (money, storage_obj)

/-- `controller_ems.py` lines 31-166: the per-step EMS dispatch.  The
`availability` argument is accepted and, as in the source, never used. -/
def controller_multiple_cars (cs : ControllerSettings)
    (status : List (List Nat)) (power_charging_port : List ℚ)
    (storage_obj : BatteryStorage) (money : ℚ) (time_step : Nat)
    (battery_capacity : List (List ℚ))
    (solar wind current_price storage_capacity grid_capacity voltage : ℚ)
    (power_set_point : PyVal) (ev_caps : EvCapsIn)
    (availability : List (List Nat)) :
    Option (ℚ × BatteryStorage × PyVal × List (List ℚ)) :=
  let caps := normalizeEvCaps ev_caps
  (adjustedSetpoint cs voltage power_set_point).bind (fun psp1 =>
    if ¬ (cs.voltage_min ≤ voltage ∧ voltage ≤ cs.voltage_max) then
      some (money, storage_obj, psp1, battery_capacity)
    else
      let charging := chargingIndices status time_step
      let total_power := solar + wind
      if charging = [] then
        let mb := noChargingBranch cs storage_obj money current_price
          storage_capacity total_power
        some (mb.1, mb.2, .scalar 0, battery_capacity)
      else
        (chargingDispatch power_charging_port storage_obj money time_step
            battery_capacity solar wind current_price grid_capacity psp1 caps
            charging).bind (fun r =>
          (flattenSetpoint r.2.2.1).map (fun fsp =>
            (r.1, r.2.1, .scalar fsp,
              nonChargingUpdate status time_step r.2.2.2))))

/-- The status value of one car as derived by `ev_battery_state.py` lines
23-34: `car_status` is the availability code (2 = away, 3 = at the charger),
`prev` the charge read by the source at index `time_step - 1` (or `0` at
step 0). -/
def evStatusOf (car_status : Nat) (cap prev : ℚ) : Nat :=
  if car_status = 2 then 0
  else if car_status = 3 then (if prev < cap then 1 else 5)
  else 0

/-- `ev_battery_state.py` lines 1-36: derives each car's status at
`time_step` by appending to an accumulator, as the source loop does. -/
def ev_state (time_step : Nat) (avail : List (List Nat)) (batteries : List ℚ)
    (current_battery : List (List ℚ)) : List Nat :=
  (List.range avail.length).foldl
    (fun statusAcc i =>
      let car_status := getN avail i time_step
      let prev_charge :=
        if time_step > 0 then get2 current_battery i (time_step - 1) else 0
      statusAcc ++ [evStatusOf car_status (batteries.getD i 0) prev_charge])
    []

/-- The energy delivered to the vehicles listed in `idx` during the step from
`t` to `t+1`: new charge at `t+1` minus old charge at `t`, summed. -/
def deliveredEnergy (tr tr' : List (List ℚ)) (idx : List Nat) (t : Nat) : ℚ :=
  (idx.map (fun i => get2 tr' i (t + 1) - get2 tr i t)).sum

/-! ### Generic list lemmas -/

theorem getD_set_zero {α} (l : List α) (n : Nat) (a : α) (m : Nat) (d : α) :
    (l.set n a).getD m d = if n = m ∧ n < l.length then a else l.getD m d := by
  rw [List.getD_eq_getElem?_getD, List.getElem?_set, List.getD_eq_getElem?_getD]
  by_cases h1 : n = m
  · subst h1
    by_cases h2 : n < l.length
    · simp [h2]
    · simp [h2, List.getElem?_eq_none (Nat.le_of_not_lt h2)]
  · simp [h1]

theorem getD_nonneg (l : List ℚ) (i : Nat) (h : ∀ p ∈ l, 0 ≤ p) :
    0 ≤ l.getD i 0 := by
  by_cases hl : i < l.length
  · rw [List.getD_eq_getElem l 0 hl]
    exact h _ (List.getElem_mem hl)
  · rw [List.getD_eq_default l 0 (Nat.le_of_not_lt hl)]

theorem getD_map_zero (f : ℚ → ℚ) (h0 : f 0 = 0) (xs : List ℚ) (i : Nat) :
    (xs.map f).getD i 0 = f (xs.getD i 0) := by
  by_cases hl : i < xs.length
  · rw [List.getD_eq_getElem _ 0 (by simpa using hl), List.getD_eq_getElem _ 0 hl,
      List.getElem_map]
  · rw [List.getD_eq_default _ 0 (by simpa using Nat.le_of_not_lt hl),
      List.getD_eq_default _ 0 (Nat.le_of_not_lt hl), h0]

/-! ### `pyInt` lemmas -/

theorem pyInt_le (q : ℚ) (h : 0 ≤ q) : ((pyInt q : ℤ) : ℚ) ≤ q := by
  rw [pyInt, if_pos h]
  exact Int.floor_le q

theorem pyInt_nonneg (q : ℚ) (h : 0 ≤ q) : (0 : ℚ) ≤ ((pyInt q : ℤ) : ℚ) := by
  rw [pyInt, if_pos h]
  exact_mod_cast Int.floor_nonneg.2 h

theorem pyInt_zero : pyInt 0 = 0 := by simp [pyInt]

/-! ### `get2` / `set2` lemmas -/

theorem get2_set2 (tr : List (List ℚ)) (i t : Nat) (v : ℚ) (j u : Nat) :
    get2 (set2 tr i t v) j u =
      if i = j ∧ t = u ∧ i < tr.length ∧ t < (tr.getD i []).length then v
      else get2 tr j u := by
  unfold get2 set2
  rw [getD_set_zero]
  by_cases h1 : i = j ∧ i < tr.length
  · rw [if_pos h1]
    obtain ⟨h1a, h1b⟩ := h1
    subst h1a
    rw [getD_set_zero]
    by_cases h2 : t = u ∧ t < (tr.getD i []).length
    · rw [if_pos h2, if_pos ⟨rfl, h2.1, h1b, h2.2⟩]
    · rw [if_neg h2, if_neg]
      rintro ⟨-, h3, -, h4⟩
      exact h2 ⟨h3, h4⟩
  · rw [if_neg h1, if_neg]
    rintro ⟨h2, -, h3, -⟩
    exact h1 ⟨h2, h3⟩

theorem get2_set2_col_ne (tr : List (List ℚ)) (i t : Nat) (v : ℚ) (j u : Nat)
    (hu : t ≠ u) : get2 (set2 tr i t v) j u = get2 tr j u := by
  rw [get2_set2, if_neg]
  rintro ⟨-, h2, -⟩
  exact hu h2

theorem get2_set2_row_ne (tr : List (List ℚ)) (i t : Nat) (v : ℚ) (j u : Nat)
    (hj : i ≠ j) : get2 (set2 tr i t v) j u = get2 tr j u := by
  rw [get2_set2, if_neg]
  rintro ⟨h1, -⟩
  exact hj h1

theorem set2_length (tr : List (List ℚ)) (i t : Nat) (v : ℚ) :
    (set2 tr i t v).length = tr.length := by
  unfold set2
  exact List.length_set tr i _

theorem set2_row_length (tr : List (List ℚ)) (i t : Nat) (v : ℚ) (j : Nat) :
    ((set2 tr i t v).getD j []).length = (tr.getD j []).length := by
  unfold set2
  rw [getD_set_zero]
  by_cases h : i = j ∧ i < tr.length
  · rw [if_pos h, List.length_set, h.1]
  · rw [if_neg h]

/-! ### `foldWrite` lemmas -/

theorem foldWrite_cons_some (t : Nat) (val : List (List ℚ) → Nat → Option ℚ)
    (a : Nat) (rest : List Nat) (tr : List (List ℚ)) (v : ℚ)
    (h : val tr a = some v) :
    foldWrite t val tr (a :: rest) = foldWrite t val (set2 tr a (t + 1) v) rest := by
  unfold foldWrite
  rw [List.foldl_cons]
  simp only [h]

theorem foldWrite_cons_none (t : Nat) (val : List (List ℚ) → Nat → Option ℚ)
    (a : Nat) (rest : List Nat) (tr : List (List ℚ))
    (h : val tr a = none) :
    foldWrite t val tr (a :: rest) = foldWrite t val tr rest := by
  unfold foldWrite
  rw [List.foldl_cons]
  simp only [h]

theorem foldWrite_length (t : Nat) (val : List (List ℚ) → Nat → Option ℚ)
    (idx : List Nat) (tr : List (List ℚ)) :
    (foldWrite t val tr idx).length = tr.length := by
  induction idx generalizing tr with
  | nil => rfl
  | cons a rest ih =>
    cases h : val tr a with
    | none => rw [foldWrite_cons_none t val a rest tr h, ih]
    | some v => rw [foldWrite_cons_some t val a rest tr v h, ih, set2_length]

theorem foldWrite_row_length (t : Nat) (val : List (List ℚ) → Nat → Option ℚ)
    (idx : List Nat) (tr : List (List ℚ)) (j : Nat) :
    ((foldWrite t val tr idx).getD j []).length = (tr.getD j []).length := by
  induction idx generalizing tr with
  | nil => rfl
  | cons a rest ih =>
    cases h : val tr a with
    | none => rw [foldWrite_cons_none t val a rest tr h, ih]
    | some v => rw [foldWrite_cons_some t val a rest tr v h, ih, set2_row_length]

theorem foldWrite_get2_col (t : Nat) (val : List (List ℚ) → Nat → Option ℚ)
    (idx : List Nat) (tr : List (List ℚ)) (j u : Nat) (hu : u ≠ t + 1) :
    get2 (foldWrite t val tr idx) j u = get2 tr j u := by
  induction idx generalizing tr with
  | nil => rfl
  | cons a rest ih =>
    cases h : val tr a with
    | none => rw [foldWrite_cons_none t val a rest tr h, ih]
    | some v =>
      rw [foldWrite_cons_some t val a rest tr v h, ih,
        get2_set2_col_ne tr a (t + 1) v j u (fun he => hu he.symm)]

theorem foldWrite_get2_notMem (t : Nat) (val : List (List ℚ) → Nat → Option ℚ)
    (idx : List Nat) (tr : List (List ℚ)) (j u : Nat) (hj : j ∉ idx) :
    get2 (foldWrite t val tr idx) j u = get2 tr j u := by
  induction idx generalizing tr with
  | nil => rfl
  | cons a rest ih =>
    have hja : a ≠ j := fun h => hj (h ▸ List.mem_cons_self a rest)
    have hjr : j ∉ rest := fun h => hj (List.mem_cons_of_mem a h)
    cases h : val tr a with
    | none => rw [foldWrite_cons_none t val a rest tr h, ih _ hjr]
    | some v =>
      rw [foldWrite_cons_some t val a rest tr v h, ih _ hjr,
        get2_set2_row_ne tr a (t + 1) v j u hja]

theorem foldWrite_get2_none (t : Nat) (val : List (List ℚ) → Nat → Option ℚ)
    (idx : List Nat) (tr : List (List ℚ)) (i u : Nat)
    (hval : ∀ acc, val acc i = none) :
    get2 (foldWrite t val tr idx) i u = get2 tr i u := by
  induction idx generalizing tr with
  | nil => rfl
  | cons a rest ih =>
    cases h : val tr a with
    | none => rw [foldWrite_cons_none t val a rest tr h, ih]
    | some v =>
      have hai : a ≠ i := by
        intro he
        rw [he, hval tr] at h
        cases h
      rw [foldWrite_cons_some t val a rest tr v h, ih,
        get2_set2_row_ne tr a (t + 1) v i u hai]

theorem foldWrite_get2_mem_some (t : Nat) (val : List (List ℚ) → Nat → Option ℚ)
    (idx : List Nat) (tr : List (List ℚ)) (i : Nat) (v : ℚ)
    (hnd : idx.Nodup) (hmem : i ∈ idx)
    (Hval : ∀ acc₁ acc₂ i', (∀ k, get2 acc₁ k t = get2 acc₂ k t) →
      val acc₁ i' = val acc₂ i')
    (hv : val tr i = some v)
    (hb1 : i < tr.length) (hb2 : t + 1 < (tr.getD i []).length) :
    get2 (foldWrite t val tr idx) i (t + 1) = v := by
  induction idx generalizing tr with
  | nil => cases hmem
  | cons a rest ih =>
    rcases List.nodup_cons.1 hnd with ⟨hna, hndr⟩
    rcases List.mem_cons.1 hmem with hia | hir
    · subst hia
      rw [foldWrite_cons_some t val i rest tr v hv,
        foldWrite_get2_notMem t val rest _ i (t + 1) hna, get2_set2,
        if_pos ⟨rfl, rfl, hb1, hb2⟩]
    · have hia : i ≠ a := fun he => hna (he ▸ hir)
      cases h : val tr a with
      | none =>
        rw [foldWrite_cons_none t val a rest tr h]
        exact ih tr hndr hir hv hb1 hb2
      | some w =>
        rw [foldWrite_cons_some t val a rest tr w h]
        have hcols : ∀ k, get2 (set2 tr a (t + 1) w) k t = get2 tr k t := by
          intro k
          exact get2_set2_col_ne tr a (t + 1) w k t (Nat.succ_ne_self t)
        refine ih (set2 tr a (t + 1) w) hndr hir ?_ ?_ ?_
        · rw [Hval _ tr i hcols, hv]
        · rw [set2_length]
          exact hb1
        · rw [set2_row_length]
          exact hb2

theorem foldWrite_get2_mem_unwritten (t : Nat)
    (val : List (List ℚ) → Nat → Option ℚ)
    (idx : List Nat) (tr : List (List ℚ)) (i : Nat)
    (hnd : idx.Nodup)
    (hb : ¬ (i < tr.length ∧ t + 1 < (tr.getD i []).length)) :
    get2 (foldWrite t val tr idx) i (t + 1) = get2 tr i (t + 1) := by
  induction idx generalizing tr with
  | nil => rfl
  | cons a rest ih =>
    rcases List.nodup_cons.1 hnd with ⟨-, hndr⟩
    cases h : val tr a with
    | none => rw [foldWrite_cons_none t val a rest tr h, ih tr hndr hb]
    | some w =>
      have hb' : ¬ (i < (set2 tr a (t + 1) w).length ∧
          t + 1 < ((set2 tr a (t + 1) w).getD i []).length) := by
        rw [set2_length, set2_row_length]
        exact hb
      cases hia : decide (a = i) with
      | true =>
        have hai : a = i := of_decide_eq_true hia
        subst hai
        rw [foldWrite_cons_some t val a rest tr w h, ih _ hndr hb', get2_set2,
          if_neg (by rintro ⟨-, -, hbx⟩; exact hb hbx)]
      | false =>
        have hai : a ≠ i := of_decide_eq_false hia
        rw [foldWrite_cons_some t val a rest tr w h, ih _ hndr hb',
          get2_set2_row_ne tr a (t + 1) w i (t + 1) hai]

/-! ### `chargeWrite` lemmas -/

theorem chargeWrite_get2_col (t : Nat) (caps : List ℚ) (amt : Nat → ℚ)
    (tr : List (List ℚ)) (idx : List Nat) (j u : Nat) (hu : u ≠ t + 1) :
    get2 (chargeWrite t caps amt tr idx) j u = get2 tr j u :=
  foldWrite_get2_col t _ idx tr j u hu

theorem chargeWrite_get2_notMem (t : Nat) (caps : List ℚ) (amt : Nat → ℚ)
    (tr : List (List ℚ)) (idx : List Nat) (j u : Nat) (hj : j ∉ idx) :
    get2 (chargeWrite t caps amt tr idx) j u = get2 tr j u :=
  foldWrite_get2_notMem t _ idx tr j u hj

theorem chargeWrite_get2_mem (t : Nat) (caps : List ℚ) (amt : Nat → ℚ)
    (tr : List (List ℚ)) (idx : List Nat) (i : Nat)
    (hnd : idx.Nodup) (hmem : i ∈ idx)
    (hb1 : i < tr.length) (hb2 : t + 1 < (tr.getD i []).length) :
    get2 (chargeWrite t caps amt tr idx) i (t + 1) =
      min (get2 tr i t + amt i) (caps.getD i 0) := by
  refine foldWrite_get2_mem_some t _ idx tr i _ hnd hmem ?_ rfl hb1 hb2
  intro a b i' hk
  simp only [hk i']

theorem chargeWrite_get2_unwritten (t : Nat) (caps : List ℚ) (amt : Nat → ℚ)
    (tr : List (List ℚ)) (idx : List Nat) (i : Nat)
    (hnd : idx.Nodup)
    (hb : ¬ (i < tr.length ∧ t + 1 < (tr.getD i []).length)) :
    get2 (chargeWrite t caps amt tr idx) i (t + 1) = get2 tr i (t + 1) :=
  foldWrite_get2_mem_unwritten t _ idx tr i hnd hb

theorem chargeWrite_length (t : Nat) (caps : List ℚ) (amt : Nat → ℚ)
    (tr : List (List ℚ)) (idx : List Nat) :
    (chargeWrite t caps amt tr idx).length = tr.length :=
  foldWrite_length t _ idx tr

theorem chargeWrite_row_length (t : Nat) (caps : List ℚ) (amt : Nat → ℚ)
    (tr : List (List ℚ)) (idx : List Nat) (j : Nat) :
    ((chargeWrite t caps amt tr idx).getD j []).length = (tr.getD j []).length :=
  foldWrite_row_length t _ idx tr j

/-! ### `nonChargingUpdate` lemmas -/

theorem nonChargingUpdate_get2_col (status : List (List Nat)) (t : Nat)
    (tr : List (List ℚ)) (j u : Nat) (hu : u ≠ t + 1) :
    get2 (nonChargingUpdate status t tr) j u = get2 tr j u :=
  foldWrite_get2_col t _ _ tr j u hu

theorem nonChargingUpdate_get2_skip (status : List (List Nat)) (t : Nat)
    (tr : List (List ℚ)) (i u : Nat)
    (h0 : getN status i t ≠ 0) (h5 : getN status i t ≠ 5) :
    get2 (nonChargingUpdate status t tr) i u = get2 tr i u := by
  refine foldWrite_get2_none t _ _ tr i u ?_
  intro acc
  simp only [h0, h5, if_false]

theorem nonChargingUpdate_get2_out (status : List (List Nat)) (t : Nat)
    (tr : List (List ℚ)) (i u : Nat) (h : status.length ≤ i) :
    get2 (nonChargingUpdate status t tr) i u = get2 tr i u := by
  refine foldWrite_get2_notMem t _ _ tr i u ?_
  simp only [List.mem_range]
  exact Nat.not_lt.2 h

theorem nonChargingUpdate_val_congr (status : List (List Nat)) (t : Nat) :
    ∀ (acc₁ acc₂ : List (List ℚ)) (i' : Nat),
      (∀ k, get2 acc₁ k t = get2 acc₂ k t) →
      (if getN status i' t = 0 then some 0
       else if getN status i' t = 5 then some (get2 acc₁ i' t)
       else none)
      = (if getN status i' t = 0 then some 0
         else if getN status i' t = 5 then some (get2 acc₂ i' t)
         else none) := by
  intro a b i' hk
  rw [hk i']

theorem nonChargingUpdate_get2_away (status : List (List Nat)) (t : Nat)
    (tr : List (List ℚ)) (i : Nat) (hi : i < status.length)
    (h0 : getN status i t = 0)
    (hb1 : i < tr.length) (hb2 : t + 1 < (tr.getD i []).length) :
    get2 (nonChargingUpdate status t tr) i (t + 1) = 0 := by
  refine foldWrite_get2_mem_some t _ _ tr i 0 (List.nodup_range _)
    (List.mem_range.2 hi) (nonChargingUpdate_val_congr status t) ?_ hb1 hb2
  rw [if_pos h0]

theorem nonChargingUpdate_get2_full (status : List (List Nat)) (t : Nat)
    (tr : List (List ℚ)) (i : Nat) (hi : i < status.length)
    (h5 : getN status i t = 5)
    (hb1 : i < tr.length) (hb2 : t + 1 < (tr.getD i []).length) :
    get2 (nonChargingUpdate status t tr) i (t + 1) = get2 tr i t := by
  refine foldWrite_get2_mem_some t _ _ tr i _ (List.nodup_range _)
    (List.mem_range.2 hi) (nonChargingUpdate_val_congr status t) ?_ hb1 hb2
  rw [if_neg (by rw [h5]; exact (by decide : (5 : Nat) ≠ 0)), if_pos h5]

theorem nonChargingUpdate_get2_unwritten (status : List (List Nat)) (t : Nat)
    (tr : List (List ℚ)) (i : Nat)
    (hb : ¬ (i < tr.length ∧ t + 1 < (tr.getD i []).length)) :
    get2 (nonChargingUpdate status t tr) i (t + 1) = get2 tr i (t + 1) :=
  foldWrite_get2_mem_unwritten t _ _ tr i (List.nodup_range _) hb

theorem chargingIndices_nodup (status : List (List Nat)) (t : Nat) :
    (chargingIndices status t).Nodup :=
  (List.nodup_range _).filter _

theorem mem_chargingIndices (status : List (List Nat)) (t : Nat) (i : Nat) :
    i ∈ chargingIndices status t ↔ i < status.length ∧ getN status i t = 1 := by
  unfold chargingIndices
  rw [List.mem_filter, List.mem_range]
  simp


/-! ### Dispatch-case lemmas -/

theorem dispatchCase_eq_iff (d g s gr : ℚ) (c : DispatchCase) :
    dispatchCase d g s gr = some c ↔ caseFires c d g s gr := by
  cases c <;> unfold dispatchCase caseFires <;>
    split_ifs with h1 h2 h3 h4 <;> simp_all

theorem caseFires_exists_unique (d g s gr : ℚ) :
    ∃! c : DispatchCase, caseFires c d g s gr := by
  by_cases h1 : d ≤ g
  · refine ⟨.A, h1, ?_⟩
    intro c hc
    cases c
    · rfl
    · exact absurd h1 hc.1
    · exact absurd h1 hc.1
    · exact absurd h1 hc.1
  · by_cases h2 : d ≤ g + s
    · refine ⟨.B, ⟨h1, h2⟩, ?_⟩
      intro c hc
      cases c
      · exact absurd hc h1
      · rfl
      · exact absurd h2 hc.2.1
      · exact absurd h2 hc.2.1
    · by_cases h3 : d ≤ g + s + gr
      · refine ⟨.C, ⟨h1, h2, h3⟩, ?_⟩
        intro c hc
        cases c
        · exact absurd hc h1
        · exact absurd hc.2 h2
        · rfl
        · exact absurd h3 hc.2.2.1
      · refine ⟨.D, ⟨h1, h2, h3, not_le.1 h3⟩, ?_⟩
        intro c hc
        cases c
        · exact absurd hc h1
        · exact absurd hc.2 h2
        · exact absurd hc.2.2 h3
        · rfl

/-! ### Controller branch lemmas -/

theorem controller_out_of_band_low (cs : ControllerSettings)
    (status : List (List Nat)) (power_charging_port : List ℚ)
    (storage_obj : BatteryStorage) (money : ℚ) (time_step : Nat)
    (battery_capacity : List (List ℚ))
    (solar wind current_price storage_capacity grid_capacity voltage : ℚ)
    (x : ℚ) (ev_caps : EvCapsIn) (availability : List (List Nat))
    (hv : voltage < cs.voltage_min) :
    controller_multiple_cars cs status power_charging_port storage_obj money
      time_step battery_capacity solar wind current_price storage_capacity
      grid_capacity voltage (.scalar x) ev_caps availability =
      some (money, storage_obj, .scalar (x + cs.p_adjust), battery_capacity) := by
  have hnb : ¬ (cs.voltage_min ≤ voltage ∧ voltage ≤ cs.voltage_max) :=
    fun hc => absurd hv (not_lt.2 hc.1)
  simp [controller_multiple_cars, adjustedSetpoint, pyAddNum, hv, hnb]

theorem controller_out_of_band_high (cs : ControllerSettings)
    (status : List (List Nat)) (power_charging_port : List ℚ)
    (storage_obj : BatteryStorage) (money : ℚ) (time_step : Nat)
    (battery_capacity : List (List ℚ))
    (solar wind current_price storage_capacity grid_capacity voltage : ℚ)
    (x : ℚ) (ev_caps : EvCapsIn) (availability : List (List Nat))
    (hv : cs.voltage_max < voltage) (hv2 : ¬ voltage < cs.voltage_min) :
    controller_multiple_cars cs status power_charging_port storage_obj money
      time_step battery_capacity solar wind current_price storage_capacity
      grid_capacity voltage (.scalar x) ev_caps availability =
      some (money, storage_obj, .scalar (x + -cs.p_adjust), battery_capacity) := by
  have hnb : ¬ (cs.voltage_min ≤ voltage ∧ voltage ≤ cs.voltage_max) :=
    fun hc => absurd hv (not_lt.2 hc.2)
  simp [controller_multiple_cars, adjustedSetpoint, pyAddNum, hv, hv2, hnb]

theorem controller_in_band_idle (cs : ControllerSettings)
    (status : List (List Nat)) (power_charging_port : List ℚ)
    (storage_obj : BatteryStorage) (money : ℚ) (time_step : Nat)
    (battery_capacity : List (List ℚ))
    (solar wind current_price storage_capacity grid_capacity voltage : ℚ)
    (power_set_point : PyVal) (ev_caps : EvCapsIn) (availability : List (List Nat))
    (hb1 : cs.voltage_min ≤ voltage) (hb2 : voltage ≤ cs.voltage_max)
    (hch : chargingIndices status time_step = []) :
    controller_multiple_cars cs status power_charging_port storage_obj money
      time_step battery_capacity solar wind current_price storage_capacity
      grid_capacity voltage power_set_point ev_caps availability =
      some ((noChargingBranch cs storage_obj money current_price
          storage_capacity (solar + wind)).1,
        (noChargingBranch cs storage_obj money current_price
          storage_capacity (solar + wind)).2,
        .scalar 0, battery_capacity) := by
  simp [controller_multiple_cars, adjustedSetpoint, not_lt.2 hb1, not_lt.2 hb2,
    hb1, hb2, hch]

theorem controller_in_band_charging (cs : ControllerSettings)
    (status : List (List Nat)) (power_charging_port : List ℚ)
    (storage_obj : BatteryStorage) (money : ℚ) (time_step : Nat)
    (battery_capacity : List (List ℚ))
    (solar wind current_price storage_capacity grid_capacity voltage : ℚ)
    (power_set_point : PyVal) (ev_caps : EvCapsIn) (availability : List (List Nat))
    (hb1 : cs.voltage_min ≤ voltage) (hb2 : voltage ≤ cs.voltage_max)
    (hch : chargingIndices status time_step ≠ []) :
    controller_multiple_cars cs status power_charging_port storage_obj money
      time_step battery_capacity solar wind current_price storage_capacity
      grid_capacity voltage power_set_point ev_caps availability =
      (chargingDispatch power_charging_port storage_obj money time_step
          battery_capacity solar wind current_price grid_capacity
          power_set_point (normalizeEvCaps ev_caps)
          (chargingIndices status time_step)).bind (fun r =>
        (flattenSetpoint r.2.2.1).map (fun fsp =>
          (r.1, r.2.1, .scalar fsp,
            nonChargingUpdate status time_step r.2.2.2))) := by
  simp [controller_multiple_cars, adjustedSetpoint, not_lt.2 hb1, not_lt.2 hb2,
    hb1, hb2, hch]

theorem controller_out_of_band_any (cs : ControllerSettings)
    (status : List (List Nat)) (power_charging_port : List ℚ)
    (storage_obj : BatteryStorage) (money : ℚ) (time_step : Nat)
    (battery_capacity : List (List ℚ))
    (solar wind current_price storage_capacity grid_capacity voltage : ℚ)
    (power_set_point psp1 : PyVal) (ev_caps : EvCapsIn)
    (availability : List (List Nat))
    (hband : ¬ (cs.voltage_min ≤ voltage ∧ voltage ≤ cs.voltage_max))
    (hA : adjustedSetpoint cs voltage power_set_point = some psp1) :
    controller_multiple_cars cs status power_charging_port storage_obj money
      time_step battery_capacity solar wind current_price storage_capacity
      grid_capacity voltage power_set_point ev_caps availability =
      some (money, storage_obj, psp1, battery_capacity) := by
  simp [controller_multiple_cars, hA, hband]

/-! ### `chargingDispatch` per-case equations -/

theorem chargingDispatch_eq_of_caseA (ports : List ℚ) (storage_obj : BatteryStorage)
    (money : ℚ) (t : Nat) (tr : List (List ℚ))
    (solar wind current_price grid_capacity : ℚ) (psp : PyVal) (caps : List ℚ)
    (charging : List Nat)
    (h : caseFires .A (total_nominal ports charging) (solar + wind)
      storage_obj.get_soc grid_capacity) :
    chargingDispatch ports storage_obj money t tr solar wind current_price
      grid_capacity psp caps charging =
      some
        ((if (solar + wind) - total_nominal ports charging >
              storage_obj.get_remaining_capacity then
            money + ((solar + wind) - total_nominal ports charging -
              min ((solar + wind) - total_nominal ports charging)
                storage_obj.get_remaining_capacity) * current_price
          else money),
         (storage_obj.charge
            (min ((solar + wind) - total_nominal ports charging)
              storage_obj.get_remaining_capacity) 1).2,
         .scalar (total_nominal ports charging),
         chargeWrite t caps (fun i => ports.getD i 0) tr charging) := by
  have hd := (dispatchCase_eq_iff (total_nominal ports charging) (solar + wind)
    storage_obj.get_soc grid_capacity .A).2 h
  simp only [chargingDispatch, hd]

theorem chargingDispatch_eq_of_caseB (ports : List ℚ) (storage_obj : BatteryStorage)
    (money : ℚ) (t : Nat) (tr : List (List ℚ))
    (solar wind current_price grid_capacity : ℚ) (psp : PyVal) (caps : List ℚ)
    (charging : List Nat)
    (h : caseFires .B (total_nominal ports charging) (solar + wind)
      storage_obj.get_soc grid_capacity) :
    chargingDispatch ports storage_obj money t tr solar wind current_price
      grid_capacity psp caps charging =
      some
        (money,
         (storage_obj.discharge (total_nominal ports charging - (solar + wind)) 1).2,
         .scalar (total_nominal ports charging),
         chargeWrite t caps (fun i => ports.getD i 0) tr charging) := by
  have hd := (dispatchCase_eq_iff (total_nominal ports charging) (solar + wind)
    storage_obj.get_soc grid_capacity .B).2 h
  simp only [chargingDispatch, hd]

theorem chargingDispatch_eq_of_caseC (ports : List ℚ) (storage_obj : BatteryStorage)
    (money : ℚ) (t : Nat) (tr : List (List ℚ))
    (solar wind current_price grid_capacity : ℚ) (psp : PyVal) (caps : List ℚ)
    (charging : List Nat)
    (h : caseFires .C (total_nominal ports charging) (solar + wind)
      storage_obj.get_soc grid_capacity) :
    chargingDispatch ports storage_obj money t tr solar wind current_price
      grid_capacity psp caps charging =
      some
        (money -
          min grid_capacity
            ((total_nominal ports charging - (solar + wind)) -
              (storage_obj.discharge
                (min storage_obj.get_soc
                  (total_nominal ports charging - (solar + wind))) 1).1) *
            current_price,
         (storage_obj.discharge
            (min storage_obj.get_soc
              (total_nominal ports charging - (solar + wind))) 1).2,
         .scalar (total_nominal ports charging),
         chargeWrite t caps (fun i => ports.getD i 0) tr charging) := by
  have hd := (dispatchCase_eq_iff (total_nominal ports charging) (solar + wind)
    storage_obj.get_soc grid_capacity .C).2 h
  simp only [chargingDispatch, hd]

theorem chargingDispatch_eq_of_caseD (ports : List ℚ) (storage_obj : BatteryStorage)
    (money : ℚ) (t : Nat) (tr : List (List ℚ))
    (solar wind current_price grid_capacity : ℚ) (psp : PyVal) (caps : List ℚ)
    (charging : List Nat)
    (h : caseFires .D (total_nominal ports charging) (solar + wind)
      storage_obj.get_soc grid_capacity)
    (hd0 : total_nominal ports charging ≠ 0) :
    chargingDispatch ports storage_obj money t tr solar wind current_price
      grid_capacity psp caps charging =
      some
        (money - grid_capacity * current_price,
         (storage_obj.discharge
            (min storage_obj.get_soc
              (total_nominal ports charging - (solar + wind))) 1).2,
         psp,
         chargeWrite t caps
           (fun i => ports.getD i 0 / total_nominal ports charging *
             ((solar + wind) + storage_obj.get_soc + grid_capacity))
           tr charging) := by
  have hd := (dispatchCase_eq_iff (total_nominal ports charging) (solar + wind)
    storage_obj.get_soc grid_capacity .D).2 h
  simp only [chargingDispatch, hd, hd0, if_false, if_neg hd0]

theorem chargingDispatch_eq_of_caseD_zero (ports : List ℚ)
    (storage_obj : BatteryStorage)
    (money : ℚ) (t : Nat) (tr : List (List ℚ))
    (solar wind current_price grid_capacity : ℚ) (psp : PyVal) (caps : List ℚ)
    (charging : List Nat)
    (h : caseFires .D (total_nominal ports charging) (solar + wind)
      storage_obj.get_soc grid_capacity)
    (hd0 : total_nominal ports charging = 0) :
    chargingDispatch ports storage_obj money t tr solar wind current_price
      grid_capacity psp caps charging = none := by
  have hd := (dispatchCase_eq_iff (total_nominal ports charging) (solar + wind)
    storage_obj.get_soc grid_capacity .D).2 h
  simp only [chargingDispatch, hd]
  rw [if_pos hd0]

/-! ### Further helper lemmas -/

theorem total_nominal_nonneg (ports : List ℚ) (idx : List Nat)
    (hports : ∀ p ∈ ports, 0 ≤ p) : 0 ≤ total_nominal ports idx := by
  unfold total_nominal
  refine List.sum_nonneg ?_
  intro x hx
  obtain ⟨i, -, rfl⟩ := List.mem_map.1 hx
  exact getD_nonneg ports i hports

theorem total_nominal_nil (ports : List ℚ) : total_nominal ports [] = 0 := rfl

theorem adjustedSetpoint_scalar_of_out (cs : ControllerSettings) (voltage : ℚ)
    (p p1 : PyVal)
    (hband : ¬ (cs.voltage_min ≤ voltage ∧ voltage ≤ cs.voltage_max))
    (hA : adjustedSetpoint cs voltage p = some p1) : ∃ x, p1 = .scalar x := by
  unfold adjustedSetpoint at hA
  by_cases h1 : voltage < cs.voltage_min
  · rw [if_pos h1] at hA
    cases p with
    | scalar x => exact ⟨x + cs.p_adjust, (Option.some.inj hA).symm⟩
    | pyList xs => cases hA
  · by_cases h2 : cs.voltage_max < voltage
    · rw [if_neg h1, if_pos h2] at hA
      cases p with
      | scalar x => exact ⟨x + -cs.p_adjust, (Option.some.inj hA).symm⟩
      | pyList xs => cases hA
    · exact absurd ⟨not_lt.1 h1, not_lt.1 h2⟩ hband

theorem dispatchCase_isSome (d g s gr : ℚ) :
    ∃ c, dispatchCase d g s gr = some c := by
  obtain ⟨c, hc, -⟩ := caseFires_exists_unique d g s gr
  exact ⟨c, (dispatchCase_eq_iff d g s gr c).2 hc⟩

theorem chargingDispatch_cases (ports : List ℚ) (storage_obj : BatteryStorage)
    (money : ℚ) (t : Nat) (tr : List (List ℚ))
    (solar wind current_price grid_capacity : ℚ) (psp : PyVal) (caps : List ℚ)
    (charging : List Nat) (r : ℚ × BatteryStorage × PyVal × List (List ℚ))
    (hD : chargingDispatch ports storage_obj money t tr solar wind current_price
      grid_capacity psp caps charging = some r) :
    (caseFires .A (total_nominal ports charging) (solar + wind)
        storage_obj.get_soc grid_capacity ∧
      r = ((if (solar + wind) - total_nominal ports charging >
              storage_obj.get_remaining_capacity then
            money + ((solar + wind) - total_nominal ports charging -
              min ((solar + wind) - total_nominal ports charging)
                storage_obj.get_remaining_capacity) * current_price
          else money),
        (storage_obj.charge
            (min ((solar + wind) - total_nominal ports charging)
              storage_obj.get_remaining_capacity) 1).2,
        .scalar (total_nominal ports charging),
        chargeWrite t caps (fun i => ports.getD i 0) tr charging)) ∨
    (caseFires .B (total_nominal ports charging) (solar + wind)
        storage_obj.get_soc grid_capacity ∧
      r = (money,
        (storage_obj.discharge (total_nominal ports charging - (solar + wind)) 1).2,
        .scalar (total_nominal ports charging),
        chargeWrite t caps (fun i => ports.getD i 0) tr charging)) ∨
    (caseFires .C (total_nominal ports charging) (solar + wind)
        storage_obj.get_soc grid_capacity ∧
      r = (money -
          min grid_capacity
            ((total_nominal ports charging - (solar + wind)) -
              (storage_obj.discharge
                (min storage_obj.get_soc
                  (total_nominal ports charging - (solar + wind))) 1).1) *
            current_price,
        (storage_obj.discharge
            (min storage_obj.get_soc
              (total_nominal ports charging - (solar + wind))) 1).2,
        .scalar (total_nominal ports charging),
        chargeWrite t caps (fun i => ports.getD i 0) tr charging)) ∨
    (caseFires .D (total_nominal ports charging) (solar + wind)
        storage_obj.get_soc grid_capacity ∧
      total_nominal ports charging ≠ 0 ∧
      r = (money - grid_capacity * current_price,
        (storage_obj.discharge
            (min storage_obj.get_soc
              (total_nominal ports charging - (solar + wind))) 1).2,
        psp,
        chargeWrite t caps
          (fun i => ports.getD i 0 / total_nominal ports charging *
            ((solar + wind) + storage_obj.get_soc + grid_capacity))
          tr charging)) := by
  obtain ⟨c, hc⟩ := dispatchCase_isSome (total_nominal ports charging)
    (solar + wind) storage_obj.get_soc grid_capacity
  have hf := (dispatchCase_eq_iff (total_nominal ports charging) (solar + wind)
    storage_obj.get_soc grid_capacity c).1 hc
  cases c with
  | A =>
    left
    refine ⟨hf, ?_⟩
    rw [chargingDispatch_eq_of_caseA ports storage_obj money t tr solar wind
      current_price grid_capacity psp caps charging hf] at hD
    exact (Option.some.inj hD).symm
  | B =>
    right; left
    refine ⟨hf, ?_⟩
    rw [chargingDispatch_eq_of_caseB ports storage_obj money t tr solar wind
      current_price grid_capacity psp caps charging hf] at hD
    exact (Option.some.inj hD).symm
  | C =>
    right; right; left
    refine ⟨hf, ?_⟩
    rw [chargingDispatch_eq_of_caseC ports storage_obj money t tr solar wind
      current_price grid_capacity psp caps charging hf] at hD
    exact (Option.some.inj hD).symm
  | D =>
    right; right; right
    by_cases hz : total_nominal ports charging = 0
    · rw [chargingDispatch_eq_of_caseD_zero ports storage_obj money t tr solar wind
        current_price grid_capacity psp caps charging hf hz] at hD
      cases hD
    · refine ⟨hf, hz, ?_⟩
      rw [chargingDispatch_eq_of_caseD ports storage_obj money t tr solar wind
        current_price grid_capacity psp caps charging hf hz] at hD
      exact (Option.some.inj hD).symm

theorem chargingDispatch_trace_shape (ports : List ℚ)
    (storage_obj : BatteryStorage) (money : ℚ) (t : Nat) (tr : List (List ℚ))
    (solar wind current_price grid_capacity : ℚ) (psp : PyVal) (caps : List ℚ)
    (charging : List Nat) (r : ℚ × BatteryStorage × PyVal × List (List ℚ))
    (hD : chargingDispatch ports storage_obj money t tr solar wind current_price
      grid_capacity psp caps charging = some r) :
    ∃ amt : Nat → ℚ, r.2.2.2 = chargeWrite t caps amt tr charging := by
  rcases chargingDispatch_cases ports storage_obj money t tr solar wind
      current_price grid_capacity psp caps charging r hD with
    ⟨-, hr⟩ | ⟨-, hr⟩ | ⟨-, hr⟩ | ⟨-, -, hr⟩
  · exact ⟨fun i => ports.getD i 0, by rw [hr]⟩
  · exact ⟨fun i => ports.getD i 0, by rw [hr]⟩
  · exact ⟨fun i => ports.getD i 0, by rw [hr]⟩
  · exact ⟨fun i => ports.getD i 0 / total_nominal ports charging *
      ((solar + wind) + storage_obj.get_soc + grid_capacity), by rw [hr]⟩

theorem normalizeEvCaps_getD (capsList : List ℚ) (i : Nat) :
    (normalizeEvCaps (EvCapsIn.caps capsList)).getD i 0 =
      ((pyInt (capsList.getD i 0) : ℤ) : ℚ) := by
  unfold normalizeEvCaps
  exact getD_map_zero _ (by simp [pyInt_zero]) capsList i

theorem foldl_append_eq_map (f : Nat → Nat) (l : List Nat) (acc : List Nat) :
    l.foldl (fun a i => a ++ [f i]) acc = acc ++ l.map f := by
  induction l generalizing acc with
  | nil => simp
  | cons a rest ih => simp [ih]

theorem ev_state_eq_map (time_step : Nat) (avail : List (List Nat))
    (batteries : List ℚ) (current_battery : List (List ℚ)) :
    ev_state time_step avail batteries current_battery =
      (List.range avail.length).map (fun i =>
        evStatusOf (getN avail i time_step) (batteries.getD i 0)
          (if time_step > 0 then get2 current_battery i (time_step - 1) else 0)) := by
  unfold ev_state
  rw [foldl_append_eq_map, List.nil_append]

/-! ### Claims -/

/-- C5 (confirmed): for any fixed demand `d`, production `g`, storage state of
charge `s` and grid capacity `gr`, exactly one of the four dispatch branches
of `controller_ems.py` lines 97-152 fires, and the `if`/`elif` chain
(`dispatchCase`) selects a branch exactly when its effective guard holds:
the four cases are mutually exclusive and exhaustive. -/
theorem claim_C5_dispatch_guards (d g s gr : ℚ) :
    (∃! c : DispatchCase, caseFires c d g s gr) ∧
    (∀ c : DispatchCase, dispatchCase d g s gr = some c ↔ caseFires c d g s gr) :=
  ⟨caseFires_exists_unique d g s gr, fun c => dispatchCase_eq_iff d g s gr c⟩

/-- C4 (confirmed): when the measured voltage is out of band the controller
returns the budget, the storage and all charge traces unchanged, and the
setpoint is the input raised by `p_adjust` when `voltage < voltage_min` and
lowered by `p_adjust` when `voltage > voltage_max`
(`controller_ems.py` lines 59-67). -/
theorem claim_C4_voltage_abort (cs : ControllerSettings)
    (status : List (List Nat)) (power_charging_port : List ℚ)
    (storage_obj : BatteryStorage) (money : ℚ) (time_step : Nat)
    (battery_capacity : List (List ℚ))
    (solar wind current_price storage_capacity grid_capacity voltage : ℚ)
    (x : ℚ) (ev_caps : EvCapsIn) (availability : List (List Nat))
    (hvv : cs.voltage_min ≤ cs.voltage_max) :
    (voltage < cs.voltage_min →
      controller_multiple_cars cs status power_charging_port storage_obj money
        time_step battery_capacity solar wind current_price storage_capacity
        grid_capacity voltage (.scalar x) ev_caps availability =
        some (money, storage_obj, .scalar (x + cs.p_adjust), battery_capacity)) ∧
    (cs.voltage_max < voltage →
      controller_multiple_cars cs status power_charging_port storage_obj money
        time_step battery_capacity solar wind current_price storage_capacity
        grid_capacity voltage (.scalar x) ev_caps availability =
        some (money, storage_obj, .scalar (x - cs.p_adjust), battery_capacity)) := by
  constructor
  · intro hv
    exact controller_out_of_band_low cs status power_charging_port storage_obj
      money time_step battery_capacity solar wind current_price storage_capacity
      grid_capacity voltage x ev_caps availability hv
  · intro hv
    have hv2 : ¬ voltage < cs.voltage_min := not_lt.2 (hvv.trans hv.le)
    rw [controller_out_of_band_high cs status power_charging_port storage_obj
      money time_step battery_capacity solar wind current_price storage_capacity
      grid_capacity voltage x ev_caps availability hv hv2, sub_eq_add_neg]

/-- C4 witness: the spec's Example 3 — voltage 0.89 p.u. with band
[0.9, 1.1] and adjustment step 10: the step aborts, budget, storage and
traces are unchanged and the setpoint is raised from 2 to 2 + 10. -/
theorem claim_C4_witness :
    controller_multiple_cars ⟨9/10, 11/10, 10, 3, 1⟩ [[1]] [100] ⟨1000, 1, 1, 50⟩
      5 0 [[3, 0]] 100 0 1 1000 50 (89/100) (.scalar 2) (.caps [10000]) [] =
      some (5, ⟨1000, 1, 1, 50⟩, .scalar (2 + 10), [[3, 0]]) :=
  (claim_C4_voltage_abort ⟨9/10, 11/10, 10, 3, 1⟩ [[1]] [100] ⟨1000, 1, 1, 50⟩
    5 0 [[3, 0]] 100 0 1 1000 50 (89/100) 2 (.caps [10000]) []
    (by norm_num)).1 (by norm_num)

/-- C3 counterexample: the derived status is not a function of
`(t, presence, capacity, charge_trace[i][t])`.  Both calls below have
`t = 1`, presence code `3` at index 1, capacity `100` and trace entry `20`
at index `t = 1`, yet `ev_state` returns CAN_CHARGE (1) for the first and
FULL (5) for the second, because the source reads the trace at `t - 1`
(`ev_battery_state.py` line 24), not at `t`. -/
theorem claim_C3_counterexample :
    ev_state 1 [[3, 3]] [100] [[50, 20]] = [1] ∧
    ev_state 1 [[3, 3]] [100] [[100, 20]] = [5] := by
  constructor <;> rfl

/-- C3 (corrected): for every vehicle `i` the derived status is a pure
function of `(t, presence_i(t), capacity_i, charge_trace[i][t-1])` — the
charge compared is the trace entry at the previous index `t - 1` (taken as
`0` at `t = 0`), and the comparison is the exact `charge < capacity` with
zero tolerance: away (code 2) maps to 0, at the charger (code 3) maps to 1
when the previous charge is below capacity and to 5 otherwise
(`ev_battery_state.py` lines 19-36). -/
theorem claim_C3_status_prev_index (time_step : Nat) (avail : List (List Nat))
    (batteries : List ℚ) (current_battery : List (List ℚ)) (i : Nat)
    (hi : i < avail.length) :
    (ev_state time_step avail batteries current_battery).getD i 0 =
      evStatusOf (getN avail i time_step) (batteries.getD i 0)
        (if 0 < time_step then get2 current_battery i (time_step - 1) else 0) ∧
    (getN avail i time_step = 2 →
      (ev_state time_step avail batteries current_battery).getD i 0 = 0) ∧
    (getN avail i time_step = 3 →
      (if 0 < time_step then get2 current_battery i (time_step - 1) else 0) <
        batteries.getD i 0 →
      (ev_state time_step avail batteries current_battery).getD i 0 = 1) ∧
    (getN avail i time_step = 3 →
      batteries.getD i 0 ≤
        (if 0 < time_step then get2 current_battery i (time_step - 1) else 0) →
      (ev_state time_step avail batteries current_battery).getD i 0 = 5) := by
  have key : (ev_state time_step avail batteries current_battery).getD i 0 =
      evStatusOf (getN avail i time_step) (batteries.getD i 0)
        (if 0 < time_step then get2 current_battery i (time_step - 1) else 0) := by
    rw [ev_state_eq_map]
    rw [List.getD_eq_getElem _ _ (by simpa using hi), List.getElem_map,
      List.getElem_range]
  refine ⟨key, ?_, ?_, ?_⟩
  · intro h2
    rw [key]
    unfold evStatusOf
    rw [if_pos h2]
  · intro h3 hlt
    rw [key]
    unfold evStatusOf
    rw [if_neg (by rw [h3]; decide), if_pos h3, if_pos hlt]
  · intro h3 hge
    rw [key]
    unfold evStatusOf
    rw [if_neg (by rw [h3]; decide), if_pos h3, if_neg (not_lt.2 hge)]

/-- C3 witness: at `t = 1`, with availability code 3 and capacities `[100]`,
the corrected status function applied to the previous trace entry matches
`ev_state` on a concrete input. -/
theorem claim_C3_witness :
    (ev_state 1 [[3, 3]] [100] [[50, 20]]).getD 0 0 =
      evStatusOf (getN [[3, 3]] 0 1) ([(100 : ℚ)].getD 0 0)
        (if 0 < 1 then get2 [[50, 20]] 0 0 else 0) ∧
    (ev_state 1 [[3, 3]] [100] [[50, 20]]).getD 0 0 = 1 :=
  ⟨(claim_C3_status_prev_index 1 [[3, 3]] [100] [[50, 20]] 0 (by decide)).1,
   (claim_C3_status_prev_index 1 [[3, 3]] [100] [[50, 20]] 0 (by decide)).2.2.1
     (by decide) (by decide)⟩

/-- C8 counterexample: the curtailment stage has no `demand == 0` special
case.  With one plugged-in vehicle whose port power is 0 (so aggregate
demand is 0) and a negative net production, the `elif` chain reaches case 4
and the source divides by the zero total demand
(`controller_ems.py` line 144) — modelled as `none` (ZeroDivisionError) —
instead of treating the step as requiring no action. -/
theorem claim_C8_counterexample :
    total_nominal [0] (chargingIndices [[1]] 0) = 0 ∧
    controller_multiple_cars ⟨9/10, 11/10, 10, 3, 1⟩ [[1]] [0] ⟨0, 1, 1, 0⟩ 0 0
      [[0, 0]] (-1) 0 2 0 0 1 (.scalar 0) (.caps [10]) [] = none := by
  constructor
  · norm_num [total_nominal, chargingIndices, getN, List.range_succ]
  · norm_num [controller_multiple_cars, adjustedSetpoint, pyAddNum,
      chargingIndices, getN, get2, noChargingBranch, chargingDispatch,
      dispatchCase, total_nominal, normalizeEvCaps, pyInt, chargeWrite,
      foldWrite, nonChargingUpdate, set2, BatteryStorage.get_soc,
      BatteryStorage.get_remaining_capacity, BatteryStorage.charge,
      BatteryStorage.discharge, flattenSetpoint, min_def, max_def,
      List.range_succ, List.filter, List.cons_ne_nil]

/-- C8 (corrected): the source has no `demand == 0` special case in the
curtailment stage; the division by the aggregate demand is unguarded.
However, whenever production, storage state of charge and grid capacity are
nonnegative, an input with zero total requested port power satisfies the
Case-A guard (`demand ≤ production`), so the curtailment division is never
reached, no division by zero occurs and the controller returns normally. -/
theorem claim_C8_zero_demand (cs : ControllerSettings)
    (status : List (List Nat)) (power_charging_port : List ℚ)
    (storage_obj : BatteryStorage) (money : ℚ) (time_step : Nat)
    (battery_capacity : List (List ℚ))
    (solar wind current_price storage_capacity grid_capacity voltage : ℚ)
    (x : ℚ) (ev_caps : EvCapsIn) (availability : List (List Nat))
    (hg : 0 ≤ solar + wind) (hs : 0 ≤ storage_obj.get_soc)
    (hgr : 0 ≤ grid_capacity)
    (hd : total_nominal power_charging_port
      (chargingIndices status time_step) = 0) :
    (controller_multiple_cars cs status power_charging_port storage_obj money
      time_step battery_capacity solar wind current_price storage_capacity
      grid_capacity voltage (.scalar x) ev_caps availability).isSome = true ∧
    dispatchCase
      (total_nominal power_charging_port (chargingIndices status time_step))
      (solar + wind) storage_obj.get_soc grid_capacity = some .A := by
  have hfA : caseFires .A
      (total_nominal power_charging_port (chargingIndices status time_step))
      (solar + wind) storage_obj.get_soc grid_capacity := by
    show total_nominal power_charging_port (chargingIndices status time_step) ≤
      solar + wind
    rw [hd]
    exact hg
  refine ⟨?_, (dispatchCase_eq_iff _ _ _ _ .A).2 hfA⟩
  by_cases h1 : voltage < cs.voltage_min
  · rw [controller_out_of_band_low cs status power_charging_port storage_obj
      money time_step battery_capacity solar wind current_price storage_capacity
      grid_capacity voltage x ev_caps availability h1]
    rfl
  · by_cases h2 : cs.voltage_max < voltage
    · rw [controller_out_of_band_high cs status power_charging_port storage_obj
        money time_step battery_capacity solar wind current_price
        storage_capacity grid_capacity voltage x ev_caps availability h2 h1]
      rfl
    · have hb1 : cs.voltage_min ≤ voltage := not_lt.1 h1
      have hb2 : voltage ≤ cs.voltage_max := not_lt.1 h2
      by_cases hch : chargingIndices status time_step = []
      · rw [controller_in_band_idle cs status power_charging_port storage_obj
          money time_step battery_capacity solar wind current_price
          storage_capacity grid_capacity voltage (.scalar x) ev_caps
          availability hb1 hb2 hch]
        rfl
      · rw [controller_in_band_charging cs status power_charging_port storage_obj
          money time_step battery_capacity solar wind current_price
          storage_capacity grid_capacity voltage (.scalar x) ev_caps
          availability hb1 hb2 hch]
        rw [chargingDispatch_eq_of_caseA power_charging_port storage_obj money
          time_step battery_capacity solar wind current_price grid_capacity
          (.scalar x) (normalizeEvCaps ev_caps)
          (chargingIndices status time_step) hfA]
        rfl

/-- C8 witness: a concrete in-band step with one plugged-in vehicle of port
power 0 and nonnegative production: the controller returns normally and the
Case-A guard captures the zero demand. -/
theorem claim_C8_witness :
    (controller_multiple_cars ⟨9/10, 11/10, 10, 3, 1⟩ [[1]] [0] ⟨50, 1, 1, 0⟩ 0 0
      [[0, 0]] 20 0 2 50 0 1 (.scalar 0) (.caps [10]) []).isSome = true ∧
    dispatchCase (total_nominal [0] (chargingIndices [[1]] 0)) (20 + 0)
      (BatteryStorage.get_soc ⟨50, 1, 1, 0⟩) 0 = some .A :=
  claim_C8_zero_demand ⟨9/10, 11/10, 10, 3, 1⟩ [[1]] [0] ⟨50, 1, 1, 0⟩ 0 0
    [[0, 0]] 20 0 2 50 0 1 0 (.caps [10]) []
    (by norm_num) (by norm_num [BatteryStorage.get_soc]) (by norm_num)
    (by norm_num [total_nominal, chargingIndices, getN, List.range_succ])

/-- The shape of the final trace after a vehicle-charging step: the
non-charging update applied to the charging write.  Away vehicles (status 0)
get `0` at `t+1`, full vehicles (status 5) get their current charge. -/
theorem nonCharging_after_chargeWrite (status : List (List Nat)) (t : Nat)
    (tr : List (List ℚ)) (caps : List ℚ) (amt : Nat → ℚ) (i : Nat)
    (hi : i < status.length) (hbt1 : i < tr.length)
    (hbt2 : t + 1 < (tr.getD i []).length) :
    (getN status i t = 0 →
      get2 (nonChargingUpdate status t
        (chargeWrite t caps amt tr (chargingIndices status t))) i (t + 1) = 0) ∧
    (getN status i t = 5 →
      get2 (nonChargingUpdate status t
        (chargeWrite t caps amt tr (chargingIndices status t))) i (t + 1) =
        get2 tr i t) := by
  have hlen : i < (chargeWrite t caps amt tr (chargingIndices status t)).length := by
    rw [chargeWrite_length]
    exact hbt1
  have hrow : t + 1 <
      ((chargeWrite t caps amt tr (chargingIndices status t)).getD i []).length := by
    rw [chargeWrite_row_length]
    exact hbt2
  constructor
  · intro h0
    exact nonChargingUpdate_get2_away status t _ i hi h0 hlen hrow
  · intro h5
    rw [nonChargingUpdate_get2_full status t _ i hi h5 hlen hrow,
      chargeWrite_get2_col t caps amt tr (chargingIndices status t) i t
        (Nat.ne_of_lt (Nat.lt_succ_self t))]

/-- C2 counterexample: the away/full next-step update does not run on every
controller step.  With an out-of-band voltage (0.5 with band [0.9, 1.1]) and
a single FULL vehicle (status 5, current charge 5), the controller returns
the traces untouched: the next-step entry stays 0 instead of being set to
the current charge 5 (`controller_ems.py` line 67 returns before the update
at lines 154-159; the same happens in the no-vehicle-charging branch at
lines 79 and 90). -/
theorem claim_C2_counterexample :
    controller_multiple_cars ⟨9/10, 11/10, 10, 3, 1⟩ [[5]] [0] ⟨0, 1, 1, 0⟩ 0 0
      [[5, 0]] 0 0 0 0 0 (1/2) (.scalar 0) (.caps [10]) [] =
      some (0, ⟨0, 1, 1, 0⟩, .scalar 10, [[5, 0]]) ∧
    get2 [[(5 : ℚ), 0]] 0 1 = 0 ∧ get2 [[(5 : ℚ), 0]] 0 0 = 5 := by
  refine ⟨?_, rfl, rfl⟩
  norm_num [controller_multiple_cars, adjustedSetpoint, pyAddNum,
    chargingIndices, getN, get2, noChargingBranch, chargingDispatch,
    dispatchCase, total_nominal, normalizeEvCaps, pyInt, chargeWrite,
    foldWrite, nonChargingUpdate, set2, BatteryStorage.get_soc,
    BatteryStorage.get_remaining_capacity, BatteryStorage.charge,
    BatteryStorage.discharge, flattenSetpoint, min_def, max_def,
    List.range_succ, List.filter, List.cons_ne_nil]

/-- C2 (corrected): on every controller step that reaches the
vehicle-charging stages (voltage in band and at least one vehicle with
status 1), every AWAY vehicle's next-step charge is reset to 0 and every
FULL vehicle's next-step charge is set equal to its current charge
(`controller_ems.py` lines 154-159).  In the voltage-abort branch and the
no-vehicle-charging branch this update does not run: the traces are
returned unchanged. -/
theorem claim_C2_noncharging_update (cs : ControllerSettings)
    (status : List (List Nat)) (power_charging_port : List ℚ)
    (storage_obj : BatteryStorage) (money : ℚ) (time_step : Nat)
    (battery_capacity : List (List ℚ))
    (solar wind current_price storage_capacity grid_capacity voltage : ℚ)
    (power_set_point : PyVal) (ev_caps : EvCapsIn) (availability : List (List Nat))
    (m' : ℚ) (s' : BatteryStorage) (p' : PyVal) (tr' : List (List ℚ))
    (hb1 : cs.voltage_min ≤ voltage) (hb2 : voltage ≤ cs.voltage_max)
    (hch : chargingIndices status time_step ≠ [])
    (heq : controller_multiple_cars cs status power_charging_port storage_obj
      money time_step battery_capacity solar wind current_price storage_capacity
      grid_capacity voltage power_set_point ev_caps availability =
      some (m', s', p', tr'))
    (i : Nat) (hi : i < status.length) (hbt1 : i < battery_capacity.length)
    (hbt2 : time_step + 1 < (battery_capacity.getD i []).length) :
    (getN status i time_step = 0 → get2 tr' i (time_step + 1) = 0) ∧
    (getN status i time_step = 5 →
      get2 tr' i (time_step + 1) = get2 battery_capacity i time_step) := by
  rw [controller_in_band_charging cs status power_charging_port storage_obj
    money time_step battery_capacity solar wind current_price storage_capacity
    grid_capacity voltage power_set_point ev_caps availability hb1 hb2 hch] at heq
  rcases hDm : chargingDispatch power_charging_port storage_obj money time_step
      battery_capacity solar wind current_price grid_capacity power_set_point
      (normalizeEvCaps ev_caps) (chargingIndices status time_step) with - | r
  · rw [hDm] at heq
    simp at heq
  · rw [hDm, Option.some_bind] at heq
    rcases hFm : flattenSetpoint r.2.2.1 with - | fsp
    · rw [hFm] at heq
      simp at heq
    · rw [hFm, Option.map_some'] at heq
      simp only [Option.some.injEq, Prod.mk.injEq] at heq
      obtain ⟨-, -, -, htr⟩ := heq
      obtain ⟨amt, hcw⟩ := chargingDispatch_trace_shape power_charging_port
        storage_obj money time_step battery_capacity solar wind current_price
        grid_capacity power_set_point (normalizeEvCaps ev_caps)
        (chargingIndices status time_step) r hDm
      rw [← htr, hcw]
      exact nonCharging_after_chargeWrite status time_step battery_capacity
        (normalizeEvCaps ev_caps) amt i hi hbt1 hbt2

/-- C2 witness: an in-band Case-A step with three vehicles of statuses 1, 0
and 5: the away vehicle's next-step entry becomes 0 (erasing its stale
charge 7) and the full vehicle's next-step entry equals its current charge 4. -/
theorem claim_C2_witness :
    get2 [[(0 : ℚ), 10], [7, 0], [4, 4]] 1 1 = 0 ∧
    get2 [[(0 : ℚ), 10], [7, 0], [4, 4]] 2 1 =
      get2 [[(0 : ℚ), 0], [7, 9], [4, 0]] 2 0 := by
  have heq : controller_multiple_cars ⟨9/10, 11/10, 10, 3, 1⟩
      [[1, 9], [0, 9], [5, 9]] [10, 0, 0] ⟨50, 1, 1, 0⟩ 0 0
      [[0, 0], [7, 9], [4, 0]] 20 0 2 50 0 1 (.scalar 0)
      (.caps [100, 100, 100]) [] =
      some (0, ⟨50, 1, 1, 10⟩, .scalar 10, [[0, 10], [7, 0], [4, 4]]) := by
    norm_num [controller_multiple_cars, adjustedSetpoint, pyAddNum,
      chargingIndices, getN, get2, noChargingBranch, chargingDispatch,
      dispatchCase, total_nominal, normalizeEvCaps, pyInt, chargeWrite,
      foldWrite, nonChargingUpdate, set2, BatteryStorage.get_soc,
      BatteryStorage.get_remaining_capacity, BatteryStorage.charge,
      BatteryStorage.discharge, flattenSetpoint, min_def, max_def,
      List.range_succ, List.filter, List.cons_ne_nil]
  refine ⟨?_, ?_⟩
  · exact (claim_C2_noncharging_update ⟨9/10, 11/10, 10, 3, 1⟩
      [[1, 9], [0, 9], [5, 9]] [10, 0, 0] ⟨50, 1, 1, 0⟩ 0 0
      [[0, 0], [7, 9], [4, 0]] 20 0 2 50 0 1 (.scalar 0)
      (.caps [100, 100, 100]) [] 0 ⟨50, 1, 1, 10⟩ (.scalar 10)
      [[0, 10], [7, 0], [4, 4]] (by norm_num) (by norm_num)
      (by norm_num [chargingIndices, getN, List.range_succ, List.filter])
      heq 1 (by norm_num) (by norm_num) (by norm_num)).1 rfl
  · exact (claim_C2_noncharging_update ⟨9/10, 11/10, 10, 3, 1⟩
      [[1, 9], [0, 9], [5, 9]] [10, 0, 0] ⟨50, 1, 1, 0⟩ 0 0
      [[0, 0], [7, 9], [4, 0]] 20 0 2 50 0 1 (.scalar 0)
      (.caps [100, 100, 100]) [] 0 ⟨50, 1, 1, 10⟩ (.scalar 10)
      [[0, 10], [7, 0], [4, 4]] (by norm_num) (by norm_num)
      (by norm_num [chargingIndices, getN, List.range_succ, List.filter])
      heq 2 (by norm_num) (by norm_num) (by norm_num)).2 rfl

/-- C9 (confirmed): whenever a controller step returns (does not raise), the
returned power setpoint is a scalar, never a list — a list input surviving
to the final return is flattened to its first element
(`controller_ems.py` lines 161-166) — and therefore the orchestrator's
list check (`cosim_framework.py` lines 107-108) accepts it and the run
continues. -/
theorem claim_C9_scalar_setpoint (cs : ControllerSettings)
    (status : List (List Nat)) (power_charging_port : List ℚ)
    (storage_obj : BatteryStorage) (money : ℚ) (time_step : Nat)
    (battery_capacity : List (List ℚ))
    (solar wind current_price storage_capacity grid_capacity voltage : ℚ)
    (power_set_point : PyVal) (ev_caps : EvCapsIn) (availability : List (List Nat))
    (m' : ℚ) (s' : BatteryStorage) (p' : PyVal) (tr' : List (List ℚ))
    (heq : controller_multiple_cars cs status power_charging_port storage_obj
      money time_step battery_capacity solar wind current_price storage_capacity
      grid_capacity voltage power_set_point ev_caps availability =
      some (m', s', p', tr')) :
    (∃ x, p' = PyVal.scalar x) ∧ manager_accepts p' = true := by
  suffices h : ∃ x, p' = PyVal.scalar x by
    obtain ⟨x, hx⟩ := h
    exact ⟨⟨x, hx⟩, by rw [hx]; rfl⟩
  cases hA : adjustedSetpoint cs voltage power_set_point with
  | none =>
    unfold controller_multiple_cars at heq
    rw [hA] at heq
    simp at heq
  | some psp1 =>
    by_cases hband : cs.voltage_min ≤ voltage ∧ voltage ≤ cs.voltage_max
    · by_cases hch : chargingIndices status time_step = []
      · rw [controller_in_band_idle cs status power_charging_port storage_obj
          money time_step battery_capacity solar wind current_price
          storage_capacity grid_capacity voltage power_set_point ev_caps
          availability hband.1 hband.2 hch] at heq
        simp only [Option.some.injEq, Prod.mk.injEq] at heq
        obtain ⟨-, -, hp, -⟩ := heq
        exact ⟨0, hp.symm⟩
      · rw [controller_in_band_charging cs status power_charging_port
          storage_obj money time_step battery_capacity solar wind current_price
          storage_capacity grid_capacity voltage power_set_point ev_caps
          availability hband.1 hband.2 hch] at heq
        rcases hDm : chargingDispatch power_charging_port storage_obj money
            time_step battery_capacity solar wind current_price grid_capacity
            power_set_point (normalizeEvCaps ev_caps)
            (chargingIndices status time_step) with - | r
        · rw [hDm] at heq
          simp at heq
        · rw [hDm, Option.some_bind] at heq
          rcases hFm : flattenSetpoint r.2.2.1 with - | fsp
          · rw [hFm] at heq
            simp at heq
          · rw [hFm, Option.map_some'] at heq
            simp only [Option.some.injEq, Prod.mk.injEq] at heq
            obtain ⟨-, -, hp, -⟩ := heq
            exact ⟨fsp, hp.symm⟩
    · rw [controller_out_of_band_any cs status power_charging_port storage_obj
        money time_step battery_capacity solar wind current_price
        storage_capacity grid_capacity voltage power_set_point psp1 ev_caps
        availability hband hA] at heq
      simp only [Option.some.injEq, Prod.mk.injEq] at heq
      obtain ⟨-, -, hp, -⟩ := heq
      obtain ⟨x, hx⟩ := adjustedSetpoint_scalar_of_out cs voltage
        power_set_point psp1 hband hA
      exact ⟨x, by rw [← hp, hx]⟩

/-- C9 witness: a Case-D step whose input setpoint is the list [7, 8]: the
controller returns normally with the scalar 7 (the list's first element)
and the orchestrator's check accepts it. -/
theorem claim_C9_witness :
    (∃ x, PyVal.scalar 7 = PyVal.scalar x) ∧
    manager_accepts (PyVal.scalar 7) = true :=
  claim_C9_scalar_setpoint ⟨9/10, 11/10, 10, 3, 1⟩ [[1]] [4] ⟨10, 1, 1, 1⟩ 0 0
    [[0, 0]] 1 0 1 10 1 1 (.pyList [7, 8]) (.caps [100]) []
    (-1) ⟨10, 1, 1, 0⟩ (.scalar 7) [[0, 3]]
    (by norm_num [controller_multiple_cars, adjustedSetpoint, pyAddNum,
      chargingIndices, getN, get2, noChargingBranch, chargingDispatch,
      dispatchCase, total_nominal, normalizeEvCaps, pyInt, chargeWrite,
      foldWrite, nonChargingUpdate, set2, BatteryStorage.get_soc,
      BatteryStorage.get_remaining_capacity, BatteryStorage.charge,
      BatteryStorage.discharge, flattenSetpoint, min_def, max_def,
      List.range_succ, List.filter, List.cons_ne_nil])

/-- C10 (confirmed): the controller converts every vehicle battery capacity
to an integer with `int()` (truncation toward zero) and wraps a scalar
capacity into a one-element list (`controller_ems.py` lines 52-56); in every
charging branch the next-step charge of a charging vehicle is clamped to the
truncated capacity, so a vehicle with a non-integer nonnegative capacity
never reaches its true capacity through charging. -/
theorem claim_C10_truncated_caps (cs : ControllerSettings)
    (status : List (List Nat)) (power_charging_port : List ℚ)
    (storage_obj : BatteryStorage) (money : ℚ) (time_step : Nat)
    (battery_capacity : List (List ℚ))
    (solar wind current_price storage_capacity grid_capacity voltage : ℚ)
    (power_set_point : PyVal) (capsList : List ℚ) (availability : List (List Nat))
    (m' : ℚ) (s' : BatteryStorage) (p' : PyVal) (tr' : List (List ℚ)) (i : Nat)
    (hi : i < status.length) (hs1 : getN status i time_step = 1)
    (hbt1 : i < battery_capacity.length)
    (hbt2 : time_step + 1 < (battery_capacity.getD i []).length)
    (hb1 : cs.voltage_min ≤ voltage) (hb2 : voltage ≤ cs.voltage_max)
    (heq : controller_multiple_cars cs status power_charging_port storage_obj
      money time_step battery_capacity solar wind current_price storage_capacity
      grid_capacity voltage power_set_point (.caps capsList) availability =
      some (m', s', p', tr')) :
    get2 tr' i (time_step + 1) ≤ ((pyInt (capsList.getD i 0) : ℤ) : ℚ) ∧
    (0 ≤ capsList.getD i 0 →
      ((pyInt (capsList.getD i 0) : ℤ) : ℚ) ≠ capsList.getD i 0 →
      get2 tr' i (time_step + 1) < capsList.getD i 0) ∧
    normalizeEvCaps (EvCapsIn.scalar (capsList.getD i 0)) =
      [((pyInt (capsList.getD i 0) : ℤ) : ℚ)] := by
  have hmem : i ∈ chargingIndices status time_step :=
    (mem_chargingIndices status time_step i).2 ⟨hi, hs1⟩
  have hch : chargingIndices status time_step ≠ [] := by
    intro h
    rw [h] at hmem
    cases hmem
  rw [controller_in_band_charging cs status power_charging_port storage_obj
    money time_step battery_capacity solar wind current_price storage_capacity
    grid_capacity voltage power_set_point (.caps capsList) availability
    hb1 hb2 hch] at heq
  rcases hDm : chargingDispatch power_charging_port storage_obj money time_step
      battery_capacity solar wind current_price grid_capacity power_set_point
      (normalizeEvCaps (.caps capsList)) (chargingIndices status time_step)
      with - | r
  · rw [hDm] at heq
    simp at heq
  · rw [hDm, Option.some_bind] at heq
    rcases hFm : flattenSetpoint r.2.2.1 with - | fsp
    · rw [hFm] at heq
      simp at heq
    · rw [hFm, Option.map_some'] at heq
      simp only [Option.some.injEq, Prod.mk.injEq] at heq
      obtain ⟨-, -, -, htr⟩ := heq
      obtain ⟨amt, hcw⟩ := chargingDispatch_trace_shape power_charging_port
        storage_obj money time_step battery_capacity solar wind current_price
        grid_capacity power_set_point (normalizeEvCaps (.caps capsList))
        (chargingIndices status time_step) r hDm
      have hcapsQ : (normalizeEvCaps (EvCapsIn.caps capsList)).getD i 0 =
          ((pyInt (capsList.getD i 0) : ℤ) : ℚ) := by
        unfold normalizeEvCaps
        exact getD_map_zero _ (by simp [pyInt_zero]) capsList i
      have hval : get2 tr' i (time_step + 1) =
          min (get2 battery_capacity i time_step + amt i)
            ((normalizeEvCaps (EvCapsIn.caps capsList)).getD i 0) := by
        rw [← htr, hcw,
          nonChargingUpdate_get2_skip status time_step _ i (time_step + 1)
            (by rw [hs1]; decide) (by rw [hs1]; decide)]
        exact chargeWrite_get2_mem time_step _ amt battery_capacity _ i
          (chargingIndices_nodup status time_step) hmem hbt1 hbt2
      have hle : get2 tr' i (time_step + 1) ≤
          ((pyInt (capsList.getD i 0) : ℤ) : ℚ) := by
        rw [hval, hcapsQ]
        exact min_le_right _ _
      refine ⟨hle, ?_, rfl⟩
      intro hc0 hne
      exact lt_of_le_of_lt hle (lt_of_le_of_ne (pyInt_le _ hc0) hne)

/-- C10 witness: a vehicle with capacity 10.5 Wh, current charge 10 and a
Case-D allocation of 50 W: the written next-step charge is 10 =
`int(10.5)`, strictly below the true capacity 10.5. -/
theorem claim_C10_witness :
    get2 [[(10 : ℚ), 10]] 0 1 ≤ ((pyInt ([(21/2 : ℚ)].getD 0 0) : ℤ) : ℚ) ∧
    (0 ≤ [(21/2 : ℚ)].getD 0 0 →
      ((pyInt ([(21/2 : ℚ)].getD 0 0) : ℤ) : ℚ) ≠ [(21/2 : ℚ)].getD 0 0 →
      get2 [[(10 : ℚ), 10]] 0 1 < [(21/2 : ℚ)].getD 0 0) ∧
    normalizeEvCaps (EvCapsIn.scalar ([(21/2 : ℚ)].getD 0 0)) =
      [((pyInt ([(21/2 : ℚ)].getD 0 0) : ℤ) : ℚ)] :=
  claim_C10_truncated_caps ⟨9/10, 11/10, 10, 3, 1⟩ [[1]] [100] ⟨50, 1, 1, 0⟩ 0 0
    [[10, 0]] 0 0 2 50 50 1 (.scalar 3) [21/2] []
    (-100) ⟨50, 1, 1, 0⟩ (.scalar 3) [[10, 10]] 0
    (by norm_num) rfl (by norm_num) (by norm_num) (by norm_num) (by norm_num)
    (by norm_num [controller_multiple_cars, adjustedSetpoint, pyAddNum,
      chargingIndices, getN, get2, noChargingBranch, chargingDispatch,
      dispatchCase, total_nominal, normalizeEvCaps, pyInt, chargeWrite,
      foldWrite, nonChargingUpdate, set2, BatteryStorage.get_soc,
      BatteryStorage.get_remaining_capacity, BatteryStorage.charge,
      BatteryStorage.discharge, flattenSetpoint, min_def, max_def,
      List.range_succ, List.filter, List.cons_ne_nil])

/-- After one charging write (any nonnegative per-vehicle amounts, capacities
normalized through `int()`) followed by the non-charging update, every
next-step trace entry lies in `[0, capacity_i]`, provided the current entries
do and the next-step entries start at 0. -/
theorem traceBounds_charging (status : List (List Nat)) (t : Nat)
    (tr : List (List ℚ)) (capsList : List ℚ) (amt : Nat → ℚ)
    (hamt : ∀ j, 0 ≤ amt j)
    (hcaps : ∀ c ∈ capsList, 0 ≤ c)
    (hcur : ∀ j, 0 ≤ get2 tr j t ∧ get2 tr j t ≤ capsList.getD j 0)
    (hinit : ∀ j, get2 tr j (t + 1) = 0) (i : Nat) :
    0 ≤ get2 (nonChargingUpdate status t
        (chargeWrite t (normalizeEvCaps (.caps capsList)) amt tr
          (chargingIndices status t))) i (t + 1) ∧
      get2 (nonChargingUpdate status t
        (chargeWrite t (normalizeEvCaps (.caps capsList)) amt tr
          (chargingIndices status t))) i (t + 1) ≤ capsList.getD i 0 := by
  have hcap0 : ∀ j, 0 ≤ capsList.getD j 0 := fun j => getD_nonneg _ _ hcaps
  have hcapsQ : ∀ j, (normalizeEvCaps (EvCapsIn.caps capsList)).getD j 0 =
      ((pyInt (capsList.getD j 0) : ℤ) : ℚ) := fun j => by
    unfold normalizeEvCaps
    exact getD_map_zero _ (by simp [pyInt_zero]) capsList j
  have hM : ∀ j, 0 ≤ get2 (chargeWrite t (normalizeEvCaps (.caps capsList)) amt
        tr (chargingIndices status t)) j (t + 1) ∧
      get2 (chargeWrite t (normalizeEvCaps (.caps capsList)) amt tr
        (chargingIndices status t)) j (t + 1) ≤ capsList.getD j 0 := by
    intro j
    by_cases hmem : j ∈ chargingIndices status t
    · by_cases hb : j < tr.length ∧ t + 1 < (tr.getD j []).length
      · rw [chargeWrite_get2_mem t _ amt tr _ j
          (chargingIndices_nodup status t) hmem hb.1 hb.2]
        constructor
        · refine le_min (add_nonneg (hcur j).1 (hamt j)) ?_
          rw [hcapsQ j]
          exact pyInt_nonneg _ (hcap0 j)
        · refine (min_le_right _ _).trans ?_
          rw [hcapsQ j]
          exact pyInt_le _ (hcap0 j)
      · rw [chargeWrite_get2_unwritten t _ amt tr _ j
          (chargingIndices_nodup status t) hb, hinit j]
        exact ⟨le_refl 0, hcap0 j⟩
    · rw [chargeWrite_get2_notMem t _ amt tr _ j (t + 1) hmem, hinit j]
      exact ⟨le_refl 0, hcap0 j⟩
  by_cases hilen : i < status.length
  · by_cases h0 : getN status i t = 0
    · by_cases hb : i < (chargeWrite t (normalizeEvCaps (.caps capsList)) amt tr
          (chargingIndices status t)).length ∧ t + 1 <
          ((chargeWrite t (normalizeEvCaps (.caps capsList)) amt tr
            (chargingIndices status t)).getD i []).length
      · rw [nonChargingUpdate_get2_away status t _ i hilen h0 hb.1 hb.2]
        exact ⟨le_refl 0, hcap0 i⟩
      · rw [nonChargingUpdate_get2_unwritten status t _ i hb]
        exact hM i
    · by_cases h5 : getN status i t = 5
      · by_cases hb : i < (chargeWrite t (normalizeEvCaps (.caps capsList)) amt tr
            (chargingIndices status t)).length ∧ t + 1 <
            ((chargeWrite t (normalizeEvCaps (.caps capsList)) amt tr
              (chargingIndices status t)).getD i []).length
        · rw [nonChargingUpdate_get2_full status t _ i hilen h5 hb.1 hb.2,
            chargeWrite_get2_col t _ amt tr _ i t (Nat.ne_of_lt (Nat.lt_succ_self t))]
          exact hcur i
        · rw [nonChargingUpdate_get2_unwritten status t _ i hb]
          exact hM i
      · rw [nonChargingUpdate_get2_skip status t _ i (t + 1) h0 h5]
        exact hM i
  · rw [nonChargingUpdate_get2_out status t _ i (t + 1) (Nat.le_of_not_lt hilen)]
    exact hM i

/-- C1 (confirmed): under nonnegative port powers, capacities, production,
storage state of charge and grid capacity, with the current trace entries in
`[0, capacity_i]` and the next-step entries initialized to 0, every
next-step trace entry produced by a controller step satisfies
`0 ≤ charge_trace[i][t+1] ≤ battery_capacity[i]` — the clamp
`min(…, int(capacity))` of `controller_ems.py` lines 98-152 together with
the non-charging update at lines 154-159 keeps every written entry in
range, and unwritten entries stay at 0. -/
theorem claim_C1_trace_bounds (cs : ControllerSettings)
    (status : List (List Nat)) (power_charging_port : List ℚ)
    (storage_obj : BatteryStorage) (money : ℚ) (time_step : Nat)
    (battery_capacity : List (List ℚ))
    (solar wind current_price storage_capacity grid_capacity voltage : ℚ)
    (power_set_point : PyVal) (capsList : List ℚ) (availability : List (List Nat))
    (m' : ℚ) (s' : BatteryStorage) (p' : PyVal) (tr' : List (List ℚ))
    (hports : ∀ p ∈ power_charging_port, 0 ≤ p)
    (hcaps : ∀ c ∈ capsList, 0 ≤ c)
    (hsolar : 0 ≤ solar) (hwind : 0 ≤ wind)
    (hsoc : 0 ≤ storage_obj.get_soc) (hgrid : 0 ≤ grid_capacity)
    (hcur : ∀ j, 0 ≤ get2 battery_capacity j time_step ∧
      get2 battery_capacity j time_step ≤ capsList.getD j 0)
    (hinit : ∀ j, get2 battery_capacity j (time_step + 1) = 0)
    (heq : controller_multiple_cars cs status power_charging_port storage_obj
      money time_step battery_capacity solar wind current_price storage_capacity
      grid_capacity voltage power_set_point (.caps capsList) availability =
      some (m', s', p', tr')) :
    ∀ i, 0 ≤ get2 tr' i (time_step + 1) ∧
      get2 tr' i (time_step + 1) ≤ capsList.getD i 0 := by
  have hcap0 : ∀ j, 0 ≤ capsList.getD j 0 := fun j => getD_nonneg _ _ hcaps
  have hunchanged : tr' = battery_capacity →
      ∀ i, 0 ≤ get2 tr' i (time_step + 1) ∧
        get2 tr' i (time_step + 1) ≤ capsList.getD i 0 := by
    rintro rfl i
    rw [hinit i]
    exact ⟨le_refl 0, hcap0 i⟩
  cases hA : adjustedSetpoint cs voltage power_set_point with
  | none =>
    unfold controller_multiple_cars at heq
    rw [hA] at heq
    simp at heq
  | some psp1 =>
    by_cases hband : cs.voltage_min ≤ voltage ∧ voltage ≤ cs.voltage_max
    · by_cases hch : chargingIndices status time_step = []
      · rw [controller_in_band_idle cs status power_charging_port storage_obj
          money time_step battery_capacity solar wind current_price
          storage_capacity grid_capacity voltage power_set_point (.caps capsList)
          availability hband.1 hband.2 hch] at heq
        simp only [Option.some.injEq, Prod.mk.injEq] at heq
        obtain ⟨-, -, -, htr⟩ := heq
        exact hunchanged htr.symm
      · rw [controller_in_band_charging cs status power_charging_port
          storage_obj money time_step battery_capacity solar wind current_price
          storage_capacity grid_capacity voltage power_set_point (.caps capsList)
          availability hband.1 hband.2 hch] at heq
        rcases hDm : chargingDispatch power_charging_port storage_obj money
            time_step battery_capacity solar wind current_price grid_capacity
            power_set_point (normalizeEvCaps (.caps capsList))
            (chargingIndices status time_step) with - | r
        · rw [hDm] at heq
          simp at heq
        · rw [hDm, Option.some_bind] at heq
          rcases hFm : flattenSetpoint r.2.2.1 with - | fsp
          · rw [hFm] at heq
            simp at heq
          · rw [hFm, Option.map_some'] at heq
            simp only [Option.some.injEq, Prod.mk.injEq] at heq
            obtain ⟨-, -, -, htr⟩ := heq
            have main : ∀ amt : Nat → ℚ, (∀ j, 0 ≤ amt j) →
                r.2.2.2 = chargeWrite time_step (normalizeEvCaps (.caps capsList))
                  amt battery_capacity (chargingIndices status time_step) →
                ∀ i, 0 ≤ get2 tr' i (time_step + 1) ∧
                  get2 tr' i (time_step + 1) ≤ capsList.getD i 0 := by
              intro amt hamt hcw i
              rw [← htr, hcw]
              exact traceBounds_charging status time_step battery_capacity
                capsList amt hamt hcaps hcur hinit i
            have hport0 : ∀ j, (0 : ℚ) ≤ power_charging_port.getD j 0 :=
              fun j => getD_nonneg _ _ hports
            rcases chargingDispatch_cases power_charging_port storage_obj money
                time_step battery_capacity solar wind current_price grid_capacity
                power_set_point (normalizeEvCaps (.caps capsList))
                (chargingIndices status time_step) r hDm with
              ⟨-, hr⟩ | ⟨-, hr⟩ | ⟨-, hr⟩ | ⟨hfD, hdnz, hr⟩
            · exact main _ hport0 (by rw [hr])
            · exact main _ hport0 (by rw [hr])
            · exact main _ hport0 (by rw [hr])
            · have havail : (0 : ℚ) ≤ (solar + wind) + storage_obj.get_soc +
                  grid_capacity :=
                add_nonneg (add_nonneg (add_nonneg hsolar hwind) hsoc) hgrid
              have hdpos : 0 <
                  total_nominal power_charging_port
                    (chargingIndices status time_step) :=
                lt_of_le_of_lt havail hfD.2.2.2
              refine main _ (fun j => ?_) (by rw [hr])
              exact mul_nonneg (div_nonneg (hport0 j) hdpos.le) havail
    · rw [controller_out_of_band_any cs status power_charging_port storage_obj
        money time_step battery_capacity solar wind current_price
        storage_capacity grid_capacity voltage power_set_point psp1
        (.caps capsList) availability hband hA] at heq
      simp only [Option.some.injEq, Prod.mk.injEq] at heq
      obtain ⟨-, -, -, htr⟩ := heq
      exact hunchanged htr.symm

/-- C1 witness: one vehicle, port 5 W, capacity 10 Wh, current charge 2 Wh,
production 10 W: the next-step entry is 7 and lies in [0, 10]. -/
theorem claim_C1_witness :
    0 ≤ get2 [[(2 : ℚ), 7]] 0 1 ∧
      get2 [[(2 : ℚ), 7]] 0 1 ≤ [(10 : ℚ)].getD 0 0 :=
  claim_C1_trace_bounds ⟨9/10, 11/10, 10, 3, 1⟩ [[1]] [5] ⟨50, 1, 1, 0⟩ 0 0
    [[2, 0]] 10 0 2 50 0 1 (.scalar 0) [10] []
    0 ⟨50, 1, 1, 5⟩ (.scalar 5) [[2, 7]]
    (by intro p hp; simp only [List.mem_singleton] at hp; rw [hp]; norm_num)
    (by intro c hc; simp only [List.mem_singleton] at hc; rw [hc]; norm_num)
    (by norm_num) (by norm_num) (by norm_num [BatteryStorage.get_soc])
    (by norm_num)
    (by
      intro j
      cases j with
      | zero => exact ⟨by norm_num [get2], by norm_num [get2]⟩
      | succ n =>
        constructor <;> simp [get2, List.getD_eq_default])
    (by
      intro j
      cases j with
      | zero => norm_num [get2]
      | succ n => simp [get2, List.getD_eq_default])
    (by norm_num [controller_multiple_cars, adjustedSetpoint, pyAddNum,
      chargingIndices, getN, get2, noChargingBranch, chargingDispatch,
      dispatchCase, total_nominal, normalizeEvCaps, pyInt, chargeWrite,
      foldWrite, nonChargingUpdate, set2, BatteryStorage.get_soc,
      BatteryStorage.get_remaining_capacity, BatteryStorage.charge,
      BatteryStorage.discharge, flattenSetpoint, min_def, max_def,
      List.range_succ, List.filter, List.cons_ne_nil]) 0

/-- C6 counterexample: in Case D the next-step charge is clamped to the
`int()`-truncated capacity, not the true capacity.  One vehicle with current
charge 10, port 100 W, capacity 10.5 Wh and headroom 50 W receives
allocation 50, and the claimed value `min(10 + 50, 10.5) = 10.5` differs
from the written entry `min(10 + 50, int(10.5)) = 10`
(`controller_ems.py` lines 52-56 and 143-148). -/
theorem claim_C6_counterexample :
    controller_multiple_cars ⟨9/10, 11/10, 10, 3, 1⟩ [[1]] [100] ⟨50, 1, 1, 0⟩ 0 0
      [[10, 0]] 0 0 2 50 50 1 (.scalar 3) (.caps [21/2]) [] =
      some (-100, ⟨50, 1, 1, 0⟩, .scalar 3, [[10, 10]]) ∧
    get2 [[(10 : ℚ), 10]] 0 1 ≠
      min (get2 [[(10 : ℚ), 0]] 0 0 + 100 / 100 * (0 + 0 + 50)) (21/2) := by
  constructor
  · norm_num [controller_multiple_cars, adjustedSetpoint, pyAddNum,
      chargingIndices, getN, get2, noChargingBranch, chargingDispatch,
      dispatchCase, total_nominal, normalizeEvCaps, pyInt, chargeWrite,
      foldWrite, nonChargingUpdate, set2, BatteryStorage.get_soc,
      BatteryStorage.get_remaining_capacity, BatteryStorage.charge,
      BatteryStorage.discharge, flattenSetpoint, min_def, max_def,
      List.range_succ, List.filter, List.cons_ne_nil]
  · norm_num [get2, min_def]

/-- C6 (corrected): whenever demand exceeds production + storage soc +
grid capacity (Case D) with positive demand, each charging vehicle `i`'s
next-step charge equals
`min(current_i + (port_i / demand) × (production + soc + grid), int(capacity_i))`
— the capacity bound is the `int()`-truncated capacity — the storage
discharge is requested with `min(soc, demand − production)`, and the budget
decreases by exactly `grid_capacity × price`
(`controller_ems.py` lines 138-152). -/
theorem claim_C6_caseD_curtailment (cs : ControllerSettings)
    (status : List (List Nat)) (power_charging_port : List ℚ)
    (storage_obj : BatteryStorage) (money : ℚ) (time_step : Nat)
    (battery_capacity : List (List ℚ))
    (solar wind current_price storage_capacity grid_capacity voltage : ℚ)
    (power_set_point : PyVal) (capsList : List ℚ) (availability : List (List Nat))
    (m' : ℚ) (s' : BatteryStorage) (p' : PyVal) (tr' : List (List ℚ))
    (hb1 : cs.voltage_min ≤ voltage) (hb2 : voltage ≤ cs.voltage_max)
    (hsoc : 0 ≤ storage_obj.get_soc) (hgrid : 0 ≤ grid_capacity)
    (hD : (solar + wind) + storage_obj.get_soc + grid_capacity <
      total_nominal power_charging_port (chargingIndices status time_step))
    (hd0 : 0 < total_nominal power_charging_port (chargingIndices status time_step))
    (heq : controller_multiple_cars cs status power_charging_port storage_obj
      money time_step battery_capacity solar wind current_price storage_capacity
      grid_capacity voltage power_set_point (.caps capsList) availability =
      some (m', s', p', tr')) :
    m' = money - grid_capacity * current_price ∧
    s' = (storage_obj.discharge
      (min storage_obj.get_soc
        (total_nominal power_charging_port (chargingIndices status time_step) -
          (solar + wind))) 1).2 ∧
    ∀ i, i < status.length → getN status i time_step = 1 →
      i < battery_capacity.length →
      time_step + 1 < (battery_capacity.getD i []).length →
      get2 tr' i (time_step + 1) =
        min (get2 battery_capacity i time_step +
          power_charging_port.getD i 0 /
            total_nominal power_charging_port (chargingIndices status time_step) *
            ((solar + wind) + storage_obj.get_soc + grid_capacity))
          ((pyInt (capsList.getD i 0) : ℤ) : ℚ) := by
  have hch : chargingIndices status time_step ≠ [] := by
    intro h
    rw [h, total_nominal_nil] at hd0
    exact lt_irrefl 0 hd0
  have hfD : caseFires .D
      (total_nominal power_charging_port (chargingIndices status time_step))
      (solar + wind) storage_obj.get_soc grid_capacity := by
    refine ⟨not_le.2 ?_, not_le.2 ?_, not_le.2 hD, hD⟩
    · linarith
    · linarith
  rw [controller_in_band_charging cs status power_charging_port storage_obj
    money time_step battery_capacity solar wind current_price storage_capacity
    grid_capacity voltage power_set_point (.caps capsList) availability
    hb1 hb2 hch,
    chargingDispatch_eq_of_caseD power_charging_port storage_obj money
      time_step battery_capacity solar wind current_price grid_capacity
      power_set_point (normalizeEvCaps (.caps capsList))
      (chargingIndices status time_step) hfD (ne_of_gt hd0)] at heq
  simp only [Option.some_bind] at heq
  rcases hFm : flattenSetpoint power_set_point with - | fsp
  · rw [hFm] at heq
    simp at heq
  · rw [hFm, Option.map_some'] at heq
    simp only [Option.some.injEq, Prod.mk.injEq] at heq
    obtain ⟨hm, hst, -, htr⟩ := heq
    refine ⟨hm.symm, hst.symm, ?_⟩
    intro i hi hs1 hbt1 hbt2
    have hmem : i ∈ chargingIndices status time_step :=
      (mem_chargingIndices status time_step i).2 ⟨hi, hs1⟩
    rw [← htr,
      nonChargingUpdate_get2_skip status time_step _ i (time_step + 1)
        (by rw [hs1]; decide) (by rw [hs1]; decide),
      chargeWrite_get2_mem time_step _ _ battery_capacity _ i
        (chargingIndices_nodup status time_step) hmem hbt1 hbt2,
      normalizeEvCaps_getD]

/-- C6 witness: the spec's Example 4 — two vehicles with ports 100 W and
300 W (demand 400 W) and headroom 200 W receive 50 W and 150 W,
proportional to port power. -/
theorem claim_C6_witness :
    get2 [[(0 : ℚ), 50], [0, 150]] 0 1 = 50 ∧
    get2 [[(0 : ℚ), 50], [0, 150]] 1 1 = 150 := by
  have h := claim_C6_caseD_curtailment ⟨9/10, 11/10, 10, 3, 1⟩
    [[1, 1], [1, 1]] [100, 300] ⟨1000, 1, 1, 50⟩ 0 0 [[0, 0], [0, 0]]
    100 0 1 1000 50 1 (.scalar 7) [10000, 10000] []
    (-50) ⟨1000, 1, 1, 0⟩ (.scalar 7) [[0, 50], [0, 150]]
    (by norm_num) (by norm_num) (by norm_num [BatteryStorage.get_soc])
    (by norm_num)
    (by norm_num [total_nominal, chargingIndices, getN, BatteryStorage.get_soc,
      List.range_succ, List.filter])
    (by norm_num [total_nominal, chargingIndices, getN,
      List.range_succ, List.filter])
    (by norm_num [controller_multiple_cars, adjustedSetpoint, pyAddNum,
      chargingIndices, getN, get2, noChargingBranch, chargingDispatch,
      dispatchCase, total_nominal, normalizeEvCaps, pyInt, chargeWrite,
      foldWrite, nonChargingUpdate, set2, BatteryStorage.get_soc,
      BatteryStorage.get_remaining_capacity, BatteryStorage.charge,
      BatteryStorage.discharge, flattenSetpoint, min_def, max_def,
      List.range_succ, List.filter, List.cons_ne_nil])
  constructor
  · rw [h.2.2 0 (by norm_num) rfl (by norm_num) (by norm_num)]
    norm_num [get2, total_nominal, chargingIndices, getN, pyInt,
      BatteryStorage.get_soc, List.range_succ, List.filter, min_def]
  · rw [h.2.2 1 (by norm_num) rfl (by norm_num) (by norm_num)]
    norm_num [get2, total_nominal, chargingIndices, getN, pyInt,
      BatteryStorage.get_soc, List.range_succ, List.filter, min_def]

/-- The energy delivered to the charging vehicles equals the sum of the
per-vehicle amounts whenever no vehicle capacity clamp binds. -/
theorem deliveredEnergy_charging (status : List (List Nat)) (t : Nat)
    (tr : List (List ℚ)) (caps : List ℚ) (amt : Nat → ℚ)
    (hbounds : ∀ i ∈ chargingIndices status t,
      i < tr.length ∧ t + 1 < (tr.getD i []).length)
    (hle : ∀ i ∈ chargingIndices status t,
      get2 tr i t + amt i ≤ caps.getD i 0) :
    deliveredEnergy tr
      (nonChargingUpdate status t
        (chargeWrite t caps amt tr (chargingIndices status t)))
      (chargingIndices status t) t =
      ((chargingIndices status t).map amt).sum := by
  unfold deliveredEnergy
  refine congrArg List.sum (List.map_congr_left ?_)
  intro i hi
  obtain ⟨hlen, hrow⟩ := hbounds i hi
  have hs1 : getN status i t = 1 := ((mem_chargingIndices status t i).1 hi).2
  rw [nonChargingUpdate_get2_skip status t _ i (t + 1)
      (by rw [hs1]; decide) (by rw [hs1]; decide),
    chargeWrite_get2_mem t caps amt tr _ i (chargingIndices_nodup status t)
      hi hlen hrow,
    min_eq_left (hle i hi)]
  ring

/-- C7 counterexample: the conservation identity fails on a step with no
capacity clamp.  An in-band step with no charging vehicle and a mid-band
price (between `price_low` and `price_high`) takes no action at all
(`controller_ems.py` line 90): money, storage and traces are unchanged, so
delivered + stored + sold − bought = 0 while production is 100. -/
theorem claim_C7_counterexample :
    controller_multiple_cars ⟨9/10, 11/10, 10, 3, 1⟩ [[0]] [50] ⟨1000, 1, 1, 0⟩
      0 0 [[0, 0]] 100 0 2 1000 50 1 (.scalar 0) (.caps [1000]) [] =
      some (0, ⟨1000, 1, 1, 0⟩, .scalar 0, [[0, 0]]) ∧
    deliveredEnergy [[0, 0]] [[0, 0]] (chargingIndices [[0]] 0) 0 +
      ((0 : ℚ) - 0) + ((0 : ℚ) - 0) / 2 ≠ 100 + 0 := by
  constructor
  · norm_num [controller_multiple_cars, adjustedSetpoint, pyAddNum,
      chargingIndices, getN, get2, noChargingBranch, chargingDispatch,
      dispatchCase, total_nominal, normalizeEvCaps, pyInt, chargeWrite,
      foldWrite, nonChargingUpdate, set2, BatteryStorage.get_soc,
      BatteryStorage.get_remaining_capacity, BatteryStorage.charge,
      BatteryStorage.discharge, flattenSetpoint, min_def, max_def,
      List.range_succ, List.filter, List.cons_ne_nil]
  · norm_num [deliveredEnergy, chargingIndices, getN, List.range_succ,
      List.filter]

/-- C7 (corrected): for every controller step that reaches the
vehicle-charging stages (voltage in band, some CAN_CHARGE vehicle), with
unit charge/discharge efficiencies, nonzero price, nonnegative production,
storage state of charge, grid capacity and port powers, and with no
capacity clamp binding (vehicle batteries absorb their full allocations,
and in Case A the excess production fits in storage), the energy delivered
to vehicles plus the storage gain plus net energy sold (money delta over
price) equals the step's total production exactly.  Idle steps (voltage
abort, or no charging vehicle with a mid-band price) do not satisfy the
identity: production is neither stored nor sold there. -/
theorem claim_C7_conservation (cs : ControllerSettings)
    (status : List (List Nat)) (power_charging_port : List ℚ)
    (storage_obj : BatteryStorage) (money : ℚ) (time_step : Nat)
    (battery_capacity : List (List ℚ))
    (solar wind current_price storage_capacity grid_capacity voltage : ℚ)
    (power_set_point : PyVal) (ev_caps : EvCapsIn) (availability : List (List Nat))
    (m' : ℚ) (s' : BatteryStorage) (p' : PyVal) (tr' : List (List ℚ))
    (hb1 : cs.voltage_min ≤ voltage) (hb2 : voltage ≤ cs.voltage_max)
    (hch : chargingIndices status time_step ≠ [])
    (heffc : storage_obj.charge_eff = 1) (heffd : storage_obj.discharge_eff = 1)
    (hprice : current_price ≠ 0)
    (hsolar : 0 ≤ solar) (hwind : 0 ≤ wind)
    (hsoc : 0 ≤ storage_obj.get_soc) (hgrid : 0 ≤ grid_capacity)
    (hports : ∀ p ∈ power_charging_port, 0 ≤ p)
    (hbounds : ∀ i ∈ chargingIndices status time_step,
      i < battery_capacity.length ∧
      time_step + 1 < (battery_capacity.getD i []).length)
    (hclamp : ∀ i ∈ chargingIndices status time_step,
      get2 battery_capacity i time_step + power_charging_port.getD i 0 ≤
        (normalizeEvCaps ev_caps).getD i 0)
    (hstoreA : total_nominal power_charging_port
        (chargingIndices status time_step) ≤ solar + wind →
      (solar + wind) - total_nominal power_charging_port
        (chargingIndices status time_step) ≤
        storage_obj.get_remaining_capacity)
    (heq : controller_multiple_cars cs status power_charging_port storage_obj
      money time_step battery_capacity solar wind current_price storage_capacity
      grid_capacity voltage power_set_point ev_caps availability =
      some (m', s', p', tr')) :
    deliveredEnergy battery_capacity tr' (chargingIndices status time_step)
        time_step +
      (s'.soc - storage_obj.soc) + (m' - money) / current_price =
      solar + wind := by
  have hport0 : ∀ j, (0 : ℚ) ≤ power_charging_port.getD j 0 :=
    fun j => getD_nonneg _ _ hports
  rw [controller_in_band_charging cs status power_charging_port storage_obj
    money time_step battery_capacity solar wind current_price storage_capacity
    grid_capacity voltage power_set_point ev_caps availability
    hb1 hb2 hch] at heq
  rcases hDm : chargingDispatch power_charging_port storage_obj money time_step
      battery_capacity solar wind current_price grid_capacity power_set_point
      (normalizeEvCaps ev_caps) (chargingIndices status time_step) with - | r
  · rw [hDm] at heq
    simp at heq
  · rw [hDm, Option.some_bind] at heq
    rcases hFm : flattenSetpoint r.2.2.1 with - | fsp
    · rw [hFm] at heq
      simp at heq
    · rw [hFm, Option.map_some'] at heq
      simp only [Option.some.injEq, Prod.mk.injEq] at heq
      obtain ⟨hm, hst, -, htr⟩ := heq
      rcases chargingDispatch_cases power_charging_port storage_obj money
          time_step battery_capacity solar wind current_price grid_capacity
          power_set_point (normalizeEvCaps ev_caps)
          (chargingIndices status time_step) r hDm with
        ⟨hfA, hr⟩ | ⟨hfB, hr⟩ | ⟨hfC, hr⟩ | ⟨hfD, hdnz, hr⟩
      · -- Case A: production covers demand
        subst hr
        dsimp only at hm hst htr
        have hexroom : (solar + wind) - total_nominal power_charging_port
            (chargingIndices status time_step) ≤
            storage_obj.get_remaining_capacity := hstoreA hfA
        rw [if_neg (not_lt.2 hexroom)] at hm
        have hDel : deliveredEnergy battery_capacity tr'
            (chargingIndices status time_step) time_step =
            total_nominal power_charging_port (chargingIndices status time_step) := by
          rw [← htr]
          exact deliveredEnergy_charging status time_step battery_capacity
            (normalizeEvCaps ev_caps) _ hbounds hclamp
        have hSoc : s'.soc = storage_obj.soc +
            ((solar + wind) - total_nominal power_charging_port
              (chargingIndices status time_step)) := by
          rw [← hst]
          unfold BatteryStorage.charge
          dsimp only
          rw [heffc, min_eq_left hexroom, mul_one, mul_one]
          refine min_eq_right ?_
          unfold BatteryStorage.get_remaining_capacity at hexroom
          linarith
        rw [hDel, hSoc, ← hm, sub_self, zero_div]
        ring
      · -- Case B: production + storage covers demand
        subst hr
        dsimp only at hm hst htr
        have hDel : deliveredEnergy battery_capacity tr'
            (chargingIndices status time_step) time_step =
            total_nominal power_charging_port (chargingIndices status time_step) := by
          rw [← htr]
          exact deliveredEnergy_charging status time_step battery_capacity
            (normalizeEvCaps ev_caps) _ hbounds hclamp
        have hSoc : s'.soc = storage_obj.soc -
            (total_nominal power_charging_port (chargingIndices status time_step) -
              (solar + wind)) := by
          rw [← hst]
          unfold BatteryStorage.discharge
          dsimp only
          rw [heffd, mul_one, div_one]
          refine max_eq_right ?_
          have := hfB.2
          unfold BatteryStorage.get_soc at this
          linarith
        rw [hDel, hSoc, ← hm, sub_self, zero_div]
        ring
      · -- Case C: production + storage + grid covers demand
        subst hr
        dsimp only at hm hst htr
        have hneed : storage_obj.get_soc ≤
            total_nominal power_charging_port (chargingIndices status time_step) -
              (solar + wind) := by
          have := hfC.2.1
          unfold BatteryStorage.get_soc
          unfold BatteryStorage.get_soc at this
          linarith [not_le.1 this]
        have hused : min storage_obj.get_soc
            (total_nominal power_charging_port (chargingIndices status time_step) -
              (solar + wind)) = storage_obj.soc := min_eq_left hneed
        have hSoc : s'.soc = 0 := by
          rw [← hst]
          simp [BatteryStorage.discharge, hused, heffd]
        have hact : (storage_obj.discharge (min storage_obj.get_soc
            (total_nominal power_charging_port (chargingIndices status time_step) -
              (solar + wind))) 1).1 = storage_obj.soc := by
          simp [BatteryStorage.discharge, hused, heffd]
        have hrem : min grid_capacity
            ((total_nominal power_charging_port (chargingIndices status time_step) -
              (solar + wind)) - storage_obj.soc) =
            (total_nominal power_charging_port (chargingIndices status time_step) -
              (solar + wind)) - storage_obj.soc := by
          refine min_eq_right ?_
          have := hfC.2.2
          unfold BatteryStorage.get_soc at this
          linarith
        have hDel : deliveredEnergy battery_capacity tr'
            (chargingIndices status time_step) time_step =
            total_nominal power_charging_port (chargingIndices status time_step) := by
          rw [← htr]
          exact deliveredEnergy_charging status time_step battery_capacity
            (normalizeEvCaps ev_caps) _ hbounds hclamp
        rw [hDel, hSoc, ← hm, hact, hrem]
        field_simp
        ring
      · -- Case D: curtailment
        subst hr
        dsimp only at hm hst htr
        have havail : (0 : ℚ) ≤ (solar + wind) + storage_obj.get_soc +
            grid_capacity :=
          add_nonneg (add_nonneg (add_nonneg hsolar hwind) hsoc) hgrid
        have hdpos : 0 < total_nominal power_charging_port
            (chargingIndices status time_step) :=
          lt_of_le_of_lt havail hfD.2.2.2
        have hamtle : ∀ i ∈ chargingIndices status time_step,
            get2 battery_capacity i time_step +
              power_charging_port.getD i 0 /
                total_nominal power_charging_port (chargingIndices status time_step) *
                ((solar + wind) + storage_obj.get_soc + grid_capacity) ≤
              (normalizeEvCaps ev_caps).getD i 0 := by
          intro i hi
          refine le_trans ?_ (hclamp i hi)
          gcongr
          calc power_charging_port.getD i 0 /
                total_nominal power_charging_port (chargingIndices status time_step) *
                ((solar + wind) + storage_obj.get_soc + grid_capacity) ≤
              power_charging_port.getD i 0 /
                total_nominal power_charging_port (chargingIndices status time_step) *
                total_nominal power_charging_port (chargingIndices status time_step) := by
                gcongr
                · exact div_nonneg (hport0 i) hdpos.le
                · exact hfD.2.2.2.le
            _ = power_charging_port.getD i 0 := div_mul_cancel₀ _ (ne_of_gt hdpos)
        have hDel : deliveredEnergy battery_capacity tr'
            (chargingIndices status time_step) time_step =
            (solar + wind) + storage_obj.get_soc + grid_capacity := by
          rw [← htr,
            deliveredEnergy_charging status time_step battery_capacity
              (normalizeEvCaps ev_caps) _ hbounds hamtle]
          have hmapeq : (chargingIndices status time_step).map
              (fun i => power_charging_port.getD i 0 /
                total_nominal power_charging_port (chargingIndices status time_step) *
                ((solar + wind) + storage_obj.get_soc + grid_capacity)) =
              (chargingIndices status time_step).map
              (fun i => power_charging_port.getD i 0 *
                (((solar + wind) + storage_obj.get_soc + grid_capacity) /
                  total_nominal power_charging_port (chargingIndices status time_step))) := by
            refine List.map_congr_left ?_
            intro a ha
            ring
          rw [hmapeq, List.sum_map_mul_right]
          show total_nominal power_charging_port (chargingIndices status time_step) *
            _ = _
          rw [mul_div_assoc']
          exact mul_div_cancel_left₀ _ (ne_of_gt hdpos)
        have hneed : storage_obj.get_soc ≤
            total_nominal power_charging_port (chargingIndices status time_step) -
              (solar + wind) := by
          have := hfD.2.2.2
          unfold BatteryStorage.get_soc
          unfold BatteryStorage.get_soc at this
          linarith
        have hused : min storage_obj.get_soc
            (total_nominal power_charging_port (chargingIndices status time_step) -
              (solar + wind)) = storage_obj.soc := min_eq_left hneed
        have hSoc : s'.soc = 0 := by
          rw [← hst]
          simp [BatteryStorage.discharge, hused, heffd]
        rw [hDel, hSoc, ← hm]
        unfold BatteryStorage.get_soc
        field_simp
        ring

/-- C7 witness: a Case-A step with one vehicle (port 5 W, current charge
2 Wh, capacity 10 Wh), production 10 W and unit efficiencies: delivered
5 + stored 5 + sold 0 = production 10. -/
theorem claim_C7_witness :
    deliveredEnergy [[(2 : ℚ), 0]] [[(2 : ℚ), 7]] (chargingIndices [[1]] 0) 0 +
      ((5 : ℚ) - 0) + ((0 : ℚ) - 0) / 2 = 10 + 0 := by
  have h := claim_C7_conservation ⟨9/10, 11/10, 10, 3, 1⟩ [[1]] [5] ⟨50, 1, 1, 0⟩
    0 0 [[2, 0]] 10 0 2 50 0 1 (.scalar 0) (.caps [10]) []
    0 ⟨50, 1, 1, 5⟩ (.scalar 5) [[2, 7]]
    (by norm_num) (by norm_num)
    (by norm_num [chargingIndices, getN, List.range_succ, List.filter])
    rfl rfl (by norm_num) (by norm_num) (by norm_num)
    (by norm_num [BatteryStorage.get_soc]) (by norm_num)
    (by intro p hp; simp only [List.mem_singleton] at hp; rw [hp]; norm_num)
    (by
      have hcc : chargingIndices [[1]] 0 = [0] := by
        norm_num [chargingIndices, getN, List.range_succ, List.filter]
      intro i hi
      rw [hcc, List.mem_singleton] at hi
      subst hi
      norm_num)
    (by
      have hcc : chargingIndices [[1]] 0 = [0] := by
        norm_num [chargingIndices, getN, List.range_succ, List.filter]
      intro i hi
      rw [hcc, List.mem_singleton] at hi
      subst hi
      norm_num [get2, normalizeEvCaps, pyInt])
    (by norm_num [total_nominal, chargingIndices, getN, List.range_succ,
      List.filter, BatteryStorage.get_remaining_capacity])
    (by norm_num [controller_multiple_cars, adjustedSetpoint, pyAddNum,
      chargingIndices, getN, get2, noChargingBranch, chargingDispatch,
      dispatchCase, total_nominal, normalizeEvCaps, pyInt, chargeWrite,
      foldWrite, nonChargingUpdate, set2, BatteryStorage.get_soc,
      BatteryStorage.get_remaining_capacity, BatteryStorage.charge,
      BatteryStorage.discharge, flattenSetpoint, min_def, max_def,
      List.range_succ, List.filter, List.cons_ne_nil])
  exact h

end TNO
